import Mathlib

/-!
Verification development for the balanced offload manager of
`modules/sd_offload.py` (class `OffloadHook`, `apply_balanced_offload` and its
inner functions `get_pipe_modules` / `apply_balanced_offload_to_module`).

Embedding conventions:
* Python floats that only take part in threshold comparisons and exact
  arithmetic on sizes are modelled as `ℚ`; `int(...)` is modelled by `pyInt`
  (truncation toward zero, Python semantics).
* Python dicts that are only ever extended (never rebound at an existing key)
  are modelled as association lists with first-match lookup.
* Calls into external libraries that can raise (`accelerate.infer_auto_device_map`,
  `module.to(cpu)`, the parameter-summation over a torch module) are modelled
  as `Except String` valued parameters/fields, so the source's exception flow
  is explicit.  Logging is modelled as accumulated string lists where a claim
  depends on it and elided otherwise.
* The functions `set_diffuser_offload`, `disable_offload`, `set_accelerate`,
  `dtype_byte_size` of the same file are outside every claim and not embedded.
-/

namespace SdOffload

/-- The two memory domains of the balanced offload manager.  `accel` stands for
`devices.device` (the accelerator), `cpu` for `devices.cpu` (host memory). -/
inductive Device where
  | accel
  | cpu
deriving DecidableEq, Repr

/-- Substring test on character lists: Python `needle in haystack`. -/
def listBeginsWith : List Char → List Char → Bool
  | [], _ => true
  | _ :: _, [] => false
  | a :: as, b :: bs => a = b && listBeginsWith as bs

/-- Python `needle in haystack` for strings, via the character lists. -/
def containsSub (n : List Char) : List Char → Bool
  | [] => listBeginsWith n []
  | c :: cs => listBeginsWith n (c :: cs) || containsSub n cs

/-- Python `needle in haystack` on `String`. -/
def strContains (needle hay : String) : Bool :=
  containsSub needle.data hay.data

/-- Python `s.startswith(pre)` on `String`, via the character lists. -/
def strBeginsWith (pre s : String) : Bool :=
  listBeginsWith pre.data s.data

def exceptDecEq {ε α : Type} [DecidableEq ε] [DecidableEq α] :
    (x y : Except ε α) → Decidable (x = y)
  | .error a, .error b =>
    if h : a = b then .isTrue (by rw [h])
    else .isFalse (fun hc => h (by injection hc))
  | .ok a, .ok b =>
    if h : a = b then .isTrue (by rw [h])
    else .isFalse (fun hc => h (by injection hc))
  | .error _, .ok _ => .isFalse (fun hc => Except.noConfusion hc)
  | .ok _, .error _ => .isFalse (fun hc => Except.noConfusion hc)

instance {ε α : Type} [DecidableEq ε] [DecidableEq α] : DecidableEq (Except ε α) :=
  exceptDecEq

/-- Python `int(q)`: truncation toward zero. -/
def pyInt (q : ℚ) : ℤ :=
  if 0 ≤ q then q.floor else -((-q).floor)

/-- First-match lookup in an association list, modelling `dict.get(k, None)` for
dicts that are only ever extended at fresh keys. -/
def lookupQ (l : List (String × ℚ)) (k : String) : Option ℚ :=
  (l.find? (fun p => p.1 == k)).map Prod.snd

/-- Source line 16: `offload_post = ['h1']`. -/
def offload_post_types : List String := ["h1"]

/-- Source line 18: `balanced_offload_exclude = ['CogView4Pipeline']`. -/
def balanced_offload_exclude : List String := ["CogView4Pipeline"]

/-- The `max_memory` mapping `{device_index: self.gpu, "cpu": self.cpu}` built in
`OffloadHook.pre_forward` (lines 175-178); the device index is symbolic. -/
structure MaxMemory where
  gpu : ℤ
  cpu : ℤ
deriving DecidableEq, Repr

/-- A per-parameter device map, the result of `accelerate.infer_auto_device_map`:
an assignment of parameter paths to devices.  The DirectML-only rewrite of
integer device ids into qualified strings (lines 186-190) is a representation
change on the values and is elided; `Device` already names devices symbolically. -/
def DeviceMap := List (String × Device)
deriving DecidableEq

/-- One submodule of a pipeline, as `sd_offload.py` observes it: a named
attribute of the pipe object carrying the dynamic attributes the file reads and
writes.  `isNN` is `isinstance(module, torch.nn.Module)`; `sizeCalc` is the
outcome of the parameter summation of lines 263-264 (size in GiB, parameter
count in billions), `.error` when that summation raises; `moveOutcome` is the
outcome of `module.to(devices.cpu)` (`none` = succeeds, `some msg` = raises
`msg`); `hooked` is whether the placement/eviction hook is attached;
`execution_device` is `module._hf_hook.execution_device`. -/
structure PipeModule where
  name : String
  isNN : Bool := true
  sizeCalc : Except String (ℚ × ℚ) := .ok (0, 0)
  device : Device := Device.accel
  hooked : Bool := false
  execution_device : Option Device := none
  offload_post : Bool := false
  network_layer_name : Option String := none
  balanced_offload_device_map : Option DeviceMap := none
  balanced_offload_max_memory : Option MaxMemory := none
  offload_dir : Option String := none
  moveOutcome : Option String := none
deriving DecidableEq

/-- The memory environment the file reads from `shared` and from
`devices.torch_gc(fast=True)`: `gpu_memory`/`cpu_memory` in GiB and the
occupancy reading `usedGpu` the fast garbage-collection pass returns. -/
structure SharedEnv where
  gpu_memory : ℚ
  cpu_memory : ℚ
  sd_model_type : String
  usedGpu : ℚ
deriving DecidableEq

/-- The options the embedded code reads and writes on `shared.opts`. -/
structure Opts where
  diffusers_offload_mode : String
  diffusers_offload_min_gpu_memory : ℚ
  diffusers_offload_max_gpu_memory : ℚ
  diffusers_offload_max_cpu_memory : ℚ
  te_hijack : Bool
deriving DecidableEq

/-- The state of an `OffloadHook` instance (`__init__`, lines 134-150): the
checkpoint identity, the watermark snapshot taken from the options before
validation, the byte budgets, and the two memoization maps. -/
structure OffloadHook where
  checkpoint_name : String
  min_watermark : ℚ
  max_watermark : ℚ
  cpu_watermark : ℚ
  gpu : ℤ
  cpu : ℤ
  offload_map : List (String × ℚ)
  param_map : List (String × ℚ)
deriving DecidableEq

/-- `OffloadHook.model_size` (lines 167-168): the sum of all cached sizes. -/
def OffloadHook.model_size (h : OffloadHook) : ℚ :=
  (h.offload_map.map Prod.snd).sum

/-- `OffloadHook.validate` (lines 152-165).  Mutates the option store and logs
warnings; returns the corrected options and the warning lines.  The
validation only runs in balanced mode, corrects a low watermark outside
`[0, 1]` to `0.2`, a high watermark outside `[0.1, 1]` to `0.7`, then forces
`low ≤ high`, and warns (without correcting) when the high-watermark budget is
below 4 GiB.  The source mutates `shared.opts` in place and rereads it at each
step; here the running field values are threaded as `min1`/`max2`/`min3` in
the same order (the min correction never touches the max field and vice versa,
so each read sees exactly the source's value). -/
def OffloadHook.validate (env : SharedEnv) (o : Opts) : Opts × List String :=
  if o.diffusers_offload_mode ≠ "balanced" then (o, [])
  else
    let lowBad := o.diffusers_offload_min_gpu_memory < 0 ∨ o.diffusers_offload_min_gpu_memory > 1
    let min1 := if lowBad then (1:ℚ)/5 else o.diffusers_offload_min_gpu_memory
    let w1 : List String := if lowBad then ["watermark low invalid value"] else []
    let highBad := o.diffusers_offload_max_gpu_memory < 1/10 ∨ o.diffusers_offload_max_gpu_memory > 1
    let max2 := if highBad then (7:ℚ)/10 else o.diffusers_offload_max_gpu_memory
    let w2 := if highBad then w1 ++ ["watermark high invalid value"] else w1
    let ordBad := min1 > max2
    let min3 := if ordBad then max2 else min1
    let w3 := if ordBad then w2 ++ ["watermark low reset"] else w2
    let w4 := if max2 * env.gpu_memory < 4 then w3 ++ ["watermark high low memory"] else w3
    ({o with diffusers_offload_min_gpu_memory := min3,
             diffusers_offload_max_gpu_memory := max2}, w4)

/-- The result of constructing an `OffloadHook`: the new manager, the option
store after the constructor's mutations, and the warning log. -/
structure InitResult where
  hook : OffloadHook
  opts : Opts
  warns : List String
deriving DecidableEq

/-- Lines 135-138 of `OffloadHook.__init__`: the silent clamps of the high
accelerator and host watermarks above 1 to 0.75 — no warning is logged here. -/
def OffloadHook.preclamp (opts0 : Opts) : Opts :=
  let opts1 :=
    if opts0.diffusers_offload_max_gpu_memory > 1 then
      {opts0 with diffusers_offload_max_gpu_memory := 3/4}
    else opts0
  if opts1.diffusers_offload_max_cpu_memory > 1 then
    {opts1 with diffusers_offload_max_cpu_memory := 3/4}
  else opts1

/-- `OffloadHook.__init__` (lines 134-150).  First the silent clamps of
watermarks above 1 to 0.75 (lines 135-138, no warning logged), then the field
snapshot and budget computation from the pre-validation option values
(lines 139-146), then `validate` (line 149), which corrects the option store
but not the already-taken snapshot.  The constructor is total: it never raises. -/
def OffloadHook.init (env : SharedEnv) (opts0 : Opts) (checkpoint_name : String) : InitResult :=
  let opts2 := OffloadHook.preclamp opts0
  let hook : OffloadHook :=
    { checkpoint_name := checkpoint_name
      min_watermark := opts2.diffusers_offload_min_gpu_memory
      max_watermark := opts2.diffusers_offload_max_gpu_memory
      cpu_watermark := opts2.diffusers_offload_max_cpu_memory
      gpu := pyInt (env.gpu_memory * opts2.diffusers_offload_max_gpu_memory * (1024*1024*1024))
      cpu := pyInt (env.cpu_memory * opts2.diffusers_offload_max_cpu_memory * (1024*1024*1024))
      offload_map := []
      param_map := [] }
  let vr := OffloadHook.validate env opts2
  ⟨hook, vr.1, vr.2⟩

/-- `OffloadHook.pre_forward` (lines 173-196).  `build` is the call to
`accelerate.infer_auto_device_map`, which can raise; the source's `try/except`
around it is commented out (lines 181-184), so a raise propagates.  The actual
parameter dispatch is delegated to `accelerate.dispatch_model` and leaves no
trace in the modelled state beyond the cached map; the module's
`_hf_hook.execution_device` is pinned to the accelerator (line 193) and the map
and its bounding `max_memory` pair are stored (lines 194-195). -/
def preForward (hook : OffloadHook) (build : MaxMemory → Except String DeviceMap)
    (m : PipeModule) : Except String PipeModule :=
  if m.device = Device.accel then .ok m
  else
    let maxMem : MaxMemory := ⟨hook.gpu, hook.cpu⟩
    let dmE : Except String DeviceMap :=
      match m.balanced_offload_device_map with
      | none => build maxMem
      | some dm =>
        if m.balanced_offload_max_memory ≠ some maxMem then build maxMem else .ok dm
    match dmE with
    | .error e => .error e
    | .ok dm =>
      .ok { m with
              balanced_offload_device_map := some dm
              balanced_offload_max_memory := some maxMem
              execution_device := some Device.accel }

/-- The observable outcome of one `post_forward` call: the module, the running
occupancy estimate after the call (`used_gpu`), and whether a forced full
reclamation pass was triggered. -/
structure PostOutcome where
  module : PipeModule
  usedGpu : ℚ
  forcedGc : Bool
deriving DecidableEq

/-- `OffloadHook.post_forward` (lines 198-222).  Only acts on modules whose
`offload_post` flag is set and that are not already on host (line 199).  The
occupancy estimate it updates subtracts `self.model_size()` — the sum of all
cached sizes — not the single module's size (lines 203, 208).  `move` is
`module.to(devices.cpu)`; a raise from it is classified by message pattern
(lines 213-219).  In the unclassified branch the log f-string interpolates
`module.__name__`; torch modules have no `__name__` attribute and their
`__getattr__` raises `AttributeError`, so the handler itself raises and the
exception escapes the hook.  The debug-only branches (lines 209-212, 220-221)
are modelled with debugging disabled. -/
def postForward (hook : OffloadHook) (env : SharedEnv) (opts : Opts)
    (move : PipeModule → Except String PipeModule) (m : PipeModule) :
    Except String PostOutcome :=
  if m.offload_post ∧ m.device ≠ Device.cpu then
    let used_gpu := env.usedGpu
    let perc_gpu := used_gpu / env.gpu_memory
    let module_size := hook.model_size
    let offload_now := perc_gpu > opts.diffusers_offload_min_gpu_memory
    if offload_now then
      match move m with
      | .ok m2 => .ok ⟨m2, used_gpu - module_size, false⟩
      | .error e =>
        if strContains "out of memory" e then .ok ⟨m, used_gpu, true⟩
        else if strContains "bitsandbytes" e then .ok ⟨m, used_gpu, false⟩
        else .error ("AttributeError: " ++ m.name ++ " has no attribute __name__")
    else .ok ⟨m, used_gpu, false⟩
  else .ok ⟨m, env.usedGpu, false⟩

/-- Side effects of the failure handler of `apply_balanced_offload_to_module`
(lines 304-312): forced full reclamation passes and error log lines (the
module names of unclassified failures). -/
structure Effects where
  forcedGc : ℕ
  errorLogs : List String
deriving DecidableEq

/-- The inner loop of `get_pipe_modules` (lines 256-270), with the Python
function-local variable `param_num` threaded explicitly as an `Option`
(`none` = not yet bound in this call).  On a cache hit the cached size is used
with no isinstance check; on a miss, attributes that are not torch modules are
skipped; otherwise the size computation runs.  When it raises, the except
clause logs and sets `module_size = 0` (lines 265-267), line 268 still records
the zero-size entry in `offload_map`, and then line 269 evaluates
`self.param_map[module_name] = param_num`: if no earlier module of the same
call bound `param_num`, that reference raises `UnboundLocalError`, which
propagates; if an earlier module did, its stale value is recorded.
Returns the updated manager, the accumulated `(name, size)` list, and the
number of size computations performed. -/
def gpmAux (hook : OffloadHook) (paramNum : Option ℚ) (acc : List (String × ℚ)) (cnt : ℕ) :
    List PipeModule → Except String (OffloadHook × List (String × ℚ) × ℕ)
  | [] => .ok (hook, acc, cnt)
  | m :: rest =>
    match lookupQ hook.offload_map m.name with
    | some sz => gpmAux hook paramNum (acc ++ [(m.name, sz)]) cnt rest
    | none =>
      if m.isNN then
        match m.sizeCalc with
        | .ok (sz, pn) =>
          gpmAux
            { hook with
                offload_map := hook.offload_map ++ [(m.name, sz)]
                param_map := hook.param_map ++ [(m.name, pn)] }
            (some pn) (acc ++ [(m.name, sz)]) (cnt + 1) rest
        | .error _ =>
          match paramNum with
          | none => .error "UnboundLocalError: param_num"
          | some stale =>
            gpmAux
              { hook with
                  offload_map := hook.offload_map ++ [(m.name, 0)]
                  param_map := hook.param_map ++ [(m.name, stale)] }
              (some stale) (acc ++ [(m.name, 0)]) (cnt + 1) rest
      else gpmAux hook paramNum acc cnt rest

/-- Insertion step of the descending-by-size sort of line 271. -/
def insertBySize (x : String × ℚ) : List (String × ℚ) → List (String × ℚ)
  | [] => [x]
  | y :: ys => if x.2 > y.2 then x :: y :: ys else y :: insertBySize x ys

/-- `sorted(modules.items(), key=lambda x: x[1], reverse=True)` (line 271):
descending by size.  Ties are ordered deterministically, which is all the
claims depend on. -/
def sortBySizeDesc (l : List (String × ℚ)) : List (String × ℚ) :=
  l.foldr insertBySize []

/-- The module-name filter of line 254: drop excluded names and names starting
with an underscore. -/
def keepName (exclude : List String) (n : String) : Bool :=
  !(exclude.contains n) && !(strBeginsWith "_" n)

/-- The hook-attachment state of a module list: which named submodule carries
the hook pair.  This is the observable the idempotence claim compares. -/
def hookState (mods : List PipeModule) : List (String × Bool) :=
  mods.map (fun m => (m.name, m.hooked))

/-- The (name, is-torch-module) skeleton of a module list; it determines which
entries `get_pipe_modules` considers. -/
def nnState (mods : List PipeModule) : List (String × Bool) :=
  mods.map (fun m => (m.name, m.isNN))

/-- The attribute names of a module list. -/
def namesOf (mods : List PipeModule) : List String :=
  mods.map (fun m => m.name)

/-- `get_pipe_modules` (lines 249-272): filter the pipe's attribute names,
fill the size cache lazily, and sort descending by size. -/
def getPipeModules (exclude : List String) (hook : OffloadHook) (mods : List PipeModule) :
    Except String (OffloadHook × List (String × ℚ) × ℕ) :=
  match gpmAux hook none [] 0 (mods.filter (fun m => keepName exclude m.name)) with
  | .error e => .error e
  | .ok (h, l, c) => .ok (h, sortBySizeDesc l, c)

/-- One iteration of the loop of `apply_balanced_offload_to_module`
(lines 282-321) for the entry `item = (module_name, module_size)`, threading
the running occupancy estimate `used_gpu`, the handler side effects, and the
pipe's modules.  `getattr(pipe, module_name, None)` is lookup by name;
`remove_hook_from_module` detaches the hook (and drops the `network_layer_name`
tag, which lines 287 and 316-317 save and restore); the eviction decision and
its failure handler are lines 291-312; lines 313-321 set the offload directory,
re-attach the hook, pin the execution device to the accelerator, restore the
cached device map and bounds when both were present, and set the `offload_post`
flag. -/
def applyOne (env : SharedEnv) (opts : Opts) (checkpoint_name : String)
    (item : String × ℚ) : ℚ × Effects × List PipeModule → ℚ × Effects × List PipeModule
  | (used_gpu, eff, mods) =>
    match mods.find? (fun m => m.name == item.1) with
    | none => (used_gpu, eff, mods)
    | some m =>
      let network_layer_name := m.network_layer_name
      let device_map := m.balanced_offload_device_map
      let max_memory := m.balanced_offload_max_memory
      let m1 : PipeModule := {m with hooked := false, network_layer_name := none}
      let perc_gpu := used_gpu / env.gpu_memory
      let offload_now :=
        perc_gpu > opts.diffusers_offload_min_gpu_memory ∧ m1.device ≠ Device.cpu
      let step : Device × ℚ × Effects :=
        if offload_now then
          match m1.moveOutcome with
          | none => (Device.cpu, used_gpu - item.2, eff)
          | some e =>
            if strContains "out of memory" e then
              (m1.device, used_gpu, {eff with forcedGc := eff.forcedGc + 1})
            else if strContains "bitsandbytes" e then (m1.device, used_gpu, eff)
            else (m1.device, used_gpu, {eff with errorLogs := eff.errorLogs ++ [item.1]})
        else (m1.device, used_gpu, eff)
      let m3 : PipeModule :=
        { m1 with
            device := step.1
            offload_dir := some (checkpoint_name ++ "/" ++ item.1)
            hooked := true
            execution_device := some Device.accel
            network_layer_name :=
              if network_layer_name.isSome then network_layer_name else m1.network_layer_name
            balanced_offload_device_map :=
              if device_map.isSome ∧ max_memory.isSome then device_map
              else m1.balanced_offload_device_map
            balanced_offload_max_memory :=
              if device_map.isSome ∧ max_memory.isSome then max_memory
              else m1.balanced_offload_max_memory
            offload_post :=
              decide (env.sd_model_type ∈ offload_post_types) && opts.te_hijack
                && strBeginsWith "text_encoder" item.1 }
      (step.2.1, step.2.2, mods.map fun x => if x.name == item.1 then m3 else x)

/-- `apply_balanced_offload_to_module` (lines 274-322): compute the sorted
size list (which may abort, line 282 / `get_pipe_modules`) and run the
per-module loop starting from the measured occupancy `env.usedGpu` (line 276).
The final forced reclamation pass (line 322) has no modelled state. -/
def applyBalancedOffloadToModule (env : SharedEnv) (opts : Opts) (checkpoint_name : String)
    (exclude : List String) (hook : OffloadHook) (mods : List PipeModule) :
    Except String (OffloadHook × List PipeModule × ℕ × Effects) :=
  match getPipeModules exclude hook mods with
  | .error e => .error e
  | .ok (hook2, sortedList, cnt) =>
    let r := sortedList.foldl (fun s it => applyOne env opts checkpoint_name it s)
      (env.usedGpu, ⟨0, []⟩, mods)
    .ok (hook2, r.2.2, cnt, r.2.1)

/-- A pipeline as `apply_balanced_offload` observes it: its class name, the
optional `sd_checkpoint_info.name`, and its enumerable submodules.  Nested
sub-pipelines (`pipe`, `prior_pipe`, `decoder_pipe`, lines 325-330) are handled
by identical further calls and are not part of the single-pipeline model. -/
structure Pipe where
  className : String
  sd_checkpoint_info : Option String
  modules : List PipeModule
deriving DecidableEq

/-- The observable outcome of one `apply_balanced_offload` call: the global
`offload_hook_instance` afterwards, the option store afterwards, the pipe
afterwards, the number of size-cache computations performed, whether a new
manager was constructed (`not cached`), the constructor's warning log, and the
failure-handler side effects. -/
structure ApplyResult where
  hookInstance : Option OffloadHook
  opts : Opts
  pipe : Pipe
  computeCount : ℕ
  builtNew : Bool
  warns : List String
  effects : Effects
deriving DecidableEq

/-- The tail of `apply_balanced_offload` after the manager is chosen:
run `apply_balanced_offload_to_module` and package the results. -/
def applyCore (env : SharedEnv) (opts : Opts) (pipe : Pipe) (exclude : List String)
    (checkpoint_name : String) (hook : OffloadHook) (builtNew : Bool) (warns : List String) :
    Except String ApplyResult :=
  match applyBalancedOffloadToModule env opts checkpoint_name exclude hook pipe.modules with
  | .error e => .error e
  | .ok (hook2, mods2, cnt, eff) =>
    .ok ⟨some hook2, opts, {pipe with modules := mods2}, cnt, builtNew, warns, eff⟩

/-- `apply_balanced_offload` (lines 228-340) for one pipeline.  No-op outside
balanced mode (line 230) and for excluded pipeline classes (line 239); the
checkpoint identity falls back to the class name (lines 242-244); the existing
manager is reused unless it is absent, its low or high watermark snapshot
differs from the current options, or the checkpoint changed (lines 245-247) —
the host watermark takes no part in this check.  Timing, logging and the
layerwise-quantization / `set_accelerate` plumbing (lines 331-339) are elided. -/
def applyBalancedOffload (env : SharedEnv) (st : Option OffloadHook) (opts : Opts)
    (pipe : Pipe) (exclude : List String) : Except String ApplyResult :=
  if opts.diffusers_offload_mode ≠ "balanced" then .ok ⟨st, opts, pipe, 0, false, [], ⟨0, []⟩⟩
  else if pipe.className ∈ balanced_offload_exclude then .ok ⟨st, opts, pipe, 0, false, [], ⟨0, []⟩⟩
  else
    let checkpoint_name := pipe.sd_checkpoint_info.getD pipe.className
    match st with
    | some h =>
      if h.min_watermark = opts.diffusers_offload_min_gpu_memory ∧
          h.max_watermark = opts.diffusers_offload_max_gpu_memory ∧
          checkpoint_name = h.checkpoint_name then
        applyCore env opts pipe exclude checkpoint_name h false []
      else
        let r := OffloadHook.init env opts checkpoint_name
        applyCore env r.opts pipe exclude checkpoint_name r.hook true r.warns
    | none =>
      let r := OffloadHook.init env opts checkpoint_name
      applyCore env r.opts pipe exclude checkpoint_name r.hook true r.warns

/-- Modelled from the spec: the Device-Map Builder of spec section 4.3 is
implemented by the external `accelerate` library
(`accelerate.infer_auto_device_map`, called at line 182), whose code is not
part of this repository; only its caller is.  Per the spec's words: return
null when the whole submodule fits in `max_accelerator_bytes`; otherwise
greedily descend the leaf tensors, assigning each to the accelerator while
cumulative accelerator bytes stay under `max_accelerator_bytes`, otherwise to
host (placement proceeds even past a host-budget shortfall). -/
def build_map (leaves : List (String × ℕ)) (max_accelerator_bytes _max_host_bytes : ℕ) :
    Option DeviceMap :=
  if (leaves.map Prod.snd).sum ≤ max_accelerator_bytes then none
  else
    some <|
      (leaves.foldl
        (fun (s : ℕ × List (String × Device)) leaf =>
          if s.1 + leaf.2 ≤ max_accelerator_bytes then
            (s.1 + leaf.2, s.2 ++ [(leaf.1, Device.accel)])
          else (s.1, s.2 ++ [(leaf.1, Device.cpu)]))
        (0, [])).2

/-! Concrete fixtures used by the closed witness and counterexample theorems:
a 16 GiB accelerator with 64 GiB of host memory, 8 GiB measured as used, a
balanced-mode configuration with watermarks 0.2-0.5, and a manager whose size
cache holds a 3 GiB text encoder and a 2 GiB unet. -/

def envA : SharedEnv := ⟨16, 64, "h1", 8⟩

def optsA : Opts := ⟨"balanced", 1/5, 1/2, 1/2, true⟩

def hookA : OffloadHook :=
  ⟨"ckpt", 1/5, 1/2, 1/2, 8589934592, 34359738368,
    [("text_encoder", 3), ("unet", 2)], [("text_encoder", 1), ("unet", 1)]⟩

/-- A `module.to(devices.cpu)` call that succeeds. -/
def moveOk : PipeModule → Except String PipeModule :=
  fun m => .ok {m with device := Device.cpu}

def mUnet : PipeModule := {name := "unet", sizeCalc := .ok (2, 1)}

def mTE : PipeModule := {name := "text_encoder", sizeCalc := .ok (3, 1), offload_post := true}

/-- A module residing on host with no cached device map. -/
def mHostNoMap : PipeModule := {name := "unet", device := Device.cpu}

/-- A module off the accelerator whose cached device map was built for exactly
`hookA`'s current budgets. -/
def mC6hit : PipeModule :=
  {name := "unet", device := Device.cpu,
   balanced_offload_device_map := some [("weight", Device.accel)],
   balanced_offload_max_memory := some ⟨8589934592, 34359738368⟩}

/-- A module off the accelerator whose cached device map was built for stale
budgets. -/
def mC6stale : PipeModule :=
  {name := "unet", device := Device.cpu,
   balanced_offload_device_map := some [("weight", Device.accel)],
   balanced_offload_max_memory := some ⟨1, 1⟩}

/-- A freshly built manager with empty caches. -/
def hookFresh : OffloadHook := ⟨"ckpt", 1/5, 1/2, 1/2, 0, 0, [], []⟩

/-- A module whose parameter summation raises. -/
def mCalcErr : PipeModule := {name := "text_encoder", sizeCalc := .error "TypeError: unexpected type"}

/-- An allocation-failure message matching neither classification pattern. -/
def msgUnclassified : String := "CUDA error: unspecified launch failure"

/-- `mTE` whose `module.to(devices.cpu)` raises the unclassified message. -/
def mTEfail : PipeModule :=
  {name := "text_encoder", sizeCalc := .ok (3, 1), offload_post := true,
   moveOutcome := some msgUnclassified}

/-- `mTE` after one pass of the orchestrator loop under `envA`/`optsA`:
evicted to host, hook re-attached, execution device pinned. -/
def mTEdone : PipeModule :=
  {name := "text_encoder", sizeCalc := .ok (3, 1), device := Device.cpu, hooked := true,
   execution_device := some Device.accel, offload_post := true,
   offload_dir := some "ckpt/text_encoder"}

/-- A single-module pipeline used by the orchestrator witnesses. -/
def pipeB : Pipe := ⟨"StableDiffusionPipeline", some "model.safetensors", [mUnet]⟩

/-- The manager `OffloadHook.init envA optsA "model.safetensors"` builds for
`pipeB`, with the size cache filled by the first orchestrator pass. -/
def hookB : OffloadHook :=
  ⟨"model.safetensors", 1/5, 1/2, 1/2,
    pyInt ((16:ℚ) * (1/2) * (1024*1024*1024)),
    pyInt ((64:ℚ) * (1/2) * (1024*1024*1024)),
    [("unet", 2)], [("unet", 1)]⟩

/-- `mUnet` after the first orchestrator pass under `envA`/`optsA`: evicted to
host (occupancy 8/16 exceeds the low watermark 1/5), hook re-attached,
execution device pinned, offload directory set. -/
def mUnetDone : PipeModule :=
  {name := "unet", sizeCalc := .ok (2, 1), device := Device.cpu, hooked := true,
   execution_device := some Device.accel, offload_dir := some "model.safetensors/unet"}

/-- The full result of the first `apply_balanced_offload` call on `pipeB`. -/
def resB : ApplyResult :=
  ⟨some hookB, optsA, ⟨"StableDiffusionPipeline", some "model.safetensors", [mUnetDone]⟩,
    1, true, [], ⟨0, []⟩⟩

/-! ## Theorems -/

/-- C5: for every submodule whose total size is at most the configured
accelerator budget, the device-map builder returns null, i.e. the submodule is
placed whole with no per-parameter split. -/
theorem build_map_fits_returns_none
    (leaves : List (String × ℕ)) (maxA maxH : ℕ)
    (h : (leaves.map Prod.snd).sum ≤ maxA) :
    build_map leaves maxA maxH = none := by
  simp [build_map, h]

/-- Witness for C5 at leaves of sizes 3 and 2 with accelerator budget 6. -/
theorem build_map_fits_returns_none_witness :
    ((([("a", 3), ("b", 2)] : List (String × ℕ)).map Prod.snd).sum ≤ 6)
    ∧ build_map [("a", 3), ("b", 2)] 6 10 = none :=
  ⟨by norm_num, build_map_fits_returns_none [("a", 3), ("b", 2)] 6 10 (by norm_num)⟩

/-- C6: on every placement decision (module off its execution device), the
cached device map is reused exactly when it exists and the
`(max_accelerator_bytes, max_host_bytes)` pair it was built for equals the
manager's current budgets — in that case the result does not depend on the
builder — and otherwise a new map is computed; in both cases the stored map
and stored bound pair are updated to the current budgets. -/
theorem device_map_cache_key (hook : OffloadHook) (build : MaxMemory → Except String DeviceMap)
    (m : PipeModule) (hdev : m.device ≠ Device.accel) :
    (m.balanced_offload_max_memory = some ⟨hook.gpu, hook.cpu⟩ →
      ∀ dm0, m.balanced_offload_device_map = some dm0 →
      preForward hook build m =
        .ok {m with balanced_offload_device_map := some dm0,
                    balanced_offload_max_memory := some ⟨hook.gpu, hook.cpu⟩,
                    execution_device := some Device.accel})
    ∧ ((m.balanced_offload_device_map = none ∨
          m.balanced_offload_max_memory ≠ some ⟨hook.gpu, hook.cpu⟩) →
      ∀ dm, build ⟨hook.gpu, hook.cpu⟩ = .ok dm →
      preForward hook build m =
        .ok {m with balanced_offload_device_map := some dm,
                    balanced_offload_max_memory := some ⟨hook.gpu, hook.cpu⟩,
                    execution_device := some Device.accel}) := by
  constructor
  · intro hmm dm0 hdm
    simp [preForward, hdev, hdm, hmm]
  · intro hmiss dm hbuild
    rcases hmiss with hnone | hne
    · simp [preForward, hdev, hnone, hbuild]
    · cases hdm : m.balanced_offload_device_map with
      | none => simp [preForward, hdev, hdm, hbuild]
      | some dm0 => simp [preForward, hdev, hdm, hne, hbuild]

/-- Witness for C6: with `hookA`'s budgets, a matching cached map is reused
even under a builder that would fail, and a stale bound pair forces a rebuild. -/
theorem device_map_cache_key_witness :
    mC6hit.device ≠ Device.accel
    ∧ preForward hookA (fun _ => .error "unused") mC6hit =
        .ok {mC6hit with balanced_offload_device_map := some [("weight", Device.accel)],
                         balanced_offload_max_memory := some ⟨8589934592, 34359738368⟩,
                         execution_device := some Device.accel}
    ∧ preForward hookA (fun _ => .ok [("weight", Device.cpu)]) mC6stale =
        .ok {mC6stale with balanced_offload_device_map := some [("weight", Device.cpu)],
                           balanced_offload_max_memory := some ⟨8589934592, 34359738368⟩,
                           execution_device := some Device.accel} :=
  ⟨by simp [mC6hit],
   (device_map_cache_key hookA (fun _ => .error "unused") mC6hit (by simp [mC6hit])).1 rfl _ rfl,
   (device_map_cache_key hookA (fun _ => .ok [("weight", Device.cpu)]) mC6stale
       (by simp [mC6stale])).2
     (Or.inr (by norm_num [mC6stale, hookA])) _ rfl⟩

/-- C1 counterexample: a failure raised inside the placement (pre-invocation)
hook is not caught — the `try/except` around the device-map computation is
commented out in the source — so the exception propagates out of the hook. -/
theorem pre_forward_failure_escapes_cex :
    preForward hookA (fun _ => .error "ValueError: unet does not fit") mHostNoMap
      = .error "ValueError: unet does not fit" := rfl

/-- C1 amended: failures raised inside the placement hook are not caught and
propagate to the pipeline caller, while failures raised inside the eviction
hook are contained within the hook provided every failure of the relocation
step is classified as out-of-memory or as the benign `bitsandbytes` allocator
quirk. -/
theorem hook_failure_containment_amended :
    (∀ (hook : OffloadHook) (build : MaxMemory → Except String DeviceMap)
       (m : PipeModule) (msg : String),
        m.device ≠ Device.accel → m.balanced_offload_device_map = none →
        build ⟨hook.gpu, hook.cpu⟩ = .error msg →
        preForward hook build m = .error msg)
    ∧ (∀ (hook : OffloadHook) (env : SharedEnv) (opts : Opts)
         (move : PipeModule → Except String PipeModule) (m : PipeModule),
        (∀ e, move m = .error e →
          strContains "out of memory" e = true ∨ strContains "bitsandbytes" e = true) →
        ∃ o, postForward hook env opts move m = .ok o) := by
  constructor
  · intro hook build m msg hdev hmap hbuild
    simp [preForward, hdev, hmap, hbuild]
  · intro hook env opts move m hclass
    simp only [postForward]
    split_ifs with h1 h2
    · rcases hmv : move m with e | m2
      · by_cases hoom : strContains "out of memory" e = true
        · exact ⟨⟨m, env.usedGpu, true⟩, by simp [hoom]⟩
        · rcases hclass e hmv with h | h
          · exact absurd h hoom
          · rw [Bool.not_eq_true] at hoom
            exact ⟨⟨m, env.usedGpu, false⟩, by simp [hoom, h]⟩
      · exact ⟨_, rfl⟩
    · exact ⟨_, rfl⟩
    · exact ⟨_, rfl⟩

/-- Witness for C1 amended: a concrete placement failure propagates, and a
concrete out-of-memory eviction failure is contained. -/
theorem hook_failure_containment_amended_witness :
    preForward hookA (fun _ => .error "boom") mHostNoMap = .error "boom"
    ∧ ∃ o, postForward hookA envA optsA
        (fun _ => .error "CUDA out of memory. Tried to allocate 2.00 GiB") mTE = .ok o :=
  ⟨hook_failure_containment_amended.1 hookA (fun _ => .error "boom") mHostNoMap "boom"
     (by simp [mHostNoMap]) rfl rfl,
   hook_failure_containment_amended.2 hookA envA optsA
     (fun _ => .error "CUDA out of memory. Tried to allocate 2.00 GiB") mTE
     (fun e he => by injection he with h; subst h; exact Or.inl rfl)⟩

/-- C2 counterexample: with occupancy above the low watermark, a submodule not
flagged for post-offload is left unmoved although it is not on host (first
conjunct), and for a flagged submodule the estimate drops by the manager's
total cached size 5, not by the submodule's own cached size 3 (second
conjunct). -/
theorem post_forward_eviction_cex :
    (postForward hookA envA optsA moveOk mUnet = .ok ⟨mUnet, 8, false⟩
      ∧ envA.usedGpu / envA.gpu_memory > optsA.diffusers_offload_min_gpu_memory
      ∧ mUnet.device ≠ Device.cpu)
    ∧ (postForward hookA envA optsA moveOk mTE = .ok ⟨{mTE with device := Device.cpu}, 3, false⟩
      ∧ lookupQ hookA.offload_map "text_encoder" = some 3
      ∧ (8 : ℚ) - 3 ≠ (3 : ℚ)) := by
  constructor
  · refine ⟨rfl, ?_, ?_⟩
    · norm_num [envA, optsA]
    · intro h
      exact Device.noConfusion h
  · refine ⟨?_, rfl, by norm_num⟩
    norm_num [postForward, mTE, envA, optsA, hookA, moveOk, OffloadHook.model_size]
    decide

/-- C2 amended: immediately after a submodule flagged for post-offload
finishes, if the occupancy fraction exceeds the low watermark and the
submodule is not already on host, the eviction hook moves it to host and
subtracts the manager's total cached model size (the sum of all size-cache
entries, not the single submodule's size) from the running occupancy estimate;
otherwise, and for every submodule not flagged for post-offload, it leaves
residency and the estimate unchanged. -/
theorem post_forward_eviction_amended (hook : OffloadHook) (env : SharedEnv) (opts : Opts)
    (move : PipeModule → Except String PipeModule) (m : PipeModule)
    (hmove : ∀ x, move x = .ok {x with device := Device.cpu}) :
    postForward hook env opts move m = .ok (
      if m.offload_post ∧ m.device ≠ Device.cpu then
        if env.usedGpu / env.gpu_memory > opts.diffusers_offload_min_gpu_memory then
          ⟨{m with device := Device.cpu}, env.usedGpu - hook.model_size, false⟩
        else ⟨m, env.usedGpu, false⟩
      else ⟨m, env.usedGpu, false⟩) := by
  simp only [postForward]
  split_ifs with h1 h2 <;> simp [hmove]

/-- Witness for C2 amended at the flagged text encoder under `hookA`. -/
theorem post_forward_eviction_amended_witness :
    postForward hookA envA optsA moveOk mTE = .ok (
      if mTE.offload_post ∧ mTE.device ≠ Device.cpu then
        if envA.usedGpu / envA.gpu_memory > optsA.diffusers_offload_min_gpu_memory then
          ⟨{mTE with device := Device.cpu}, envA.usedGpu - hookA.model_size, false⟩
        else ⟨mTE, envA.usedGpu, false⟩
      else ⟨mTE, envA.usedGpu, false⟩) :=
  post_forward_eviction_amended hookA envA optsA moveOk mTE (fun _ => rfl)

/-- C7: evaluated at a pipeline whose first torch submodule's size computation
raises, `get_pipe_modules` itself raises (the except clause binds no
`param_num`, and line 269 then references it), aborting the placement pass
instead of degrading to a recorded zero-size entry. -/
theorem size_calc_failure_aborts :
    getPipeModules [] hookFresh [mCalcErr, mUnet] = .error "UnboundLocalError: param_num" := rfl

/-- C8: evaluated at an allocation failure whose message matches neither
classification pattern, the eviction hook's handler itself raises (the log
f-string reads `module.__name__`, which torch modules do not have) instead of
logging and continuing, while the orchestrator-side handler with the same
message does log the module name and continue. -/
theorem unclassified_error_crashes_post_forward :
    (strContains "out of memory" msgUnclassified = false
      ∧ strContains "bitsandbytes" msgUnclassified = false)
    ∧ postForward hookA envA optsA (fun _ => .error msgUnclassified) mTE
        = .error "AttributeError: text_encoder has no attribute __name__"
    ∧ (applyOne envA optsA "ckpt" ("text_encoder", 3) (8, ⟨0, []⟩, [mTEfail])).2.1
        = ⟨0, ["text_encoder"]⟩ := by
  refine ⟨⟨rfl, rfl⟩, ?_, ?_⟩
  · norm_num [postForward, mTE, envA, optsA]
    rfl
  · norm_num [applyOne, mTEfail, envA, optsA]
    rfl

theorem preclamp_mode (o : Opts) :
    (OffloadHook.preclamp o).diffusers_offload_mode = o.diffusers_offload_mode := by
  simp only [OffloadHook.preclamp]
  split_ifs <;> rfl

theorem preclamp_min (o : Opts) :
    (OffloadHook.preclamp o).diffusers_offload_min_gpu_memory =
      o.diffusers_offload_min_gpu_memory := by
  simp only [OffloadHook.preclamp]
  split_ifs <;> rfl

theorem preclamp_max (o : Opts) :
    (OffloadHook.preclamp o).diffusers_offload_max_gpu_memory =
      if o.diffusers_offload_max_gpu_memory > 1 then 3/4
      else o.diffusers_offload_max_gpu_memory := by
  simp only [OffloadHook.preclamp]
  split_ifs <;> rfl

theorem init_opts_eq (env : SharedEnv) (o : Opts) (n : String) :
    (OffloadHook.init env o n).opts = (OffloadHook.validate env (OffloadHook.preclamp o)).1 := rfl

theorem init_warns_eq (env : SharedEnv) (o : Opts) (n : String) :
    (OffloadHook.init env o n).warns = (OffloadHook.validate env (OffloadHook.preclamp o)).2 := rfl

theorem validate_bounds (env : SharedEnv) (o : Opts)
    (hmode : o.diffusers_offload_mode = "balanced") :
    0 ≤ (OffloadHook.validate env o).1.diffusers_offload_min_gpu_memory
    ∧ (OffloadHook.validate env o).1.diffusers_offload_min_gpu_memory ≤ 1
    ∧ 1/10 ≤ (OffloadHook.validate env o).1.diffusers_offload_max_gpu_memory
    ∧ (OffloadHook.validate env o).1.diffusers_offload_max_gpu_memory ≤ 1
    ∧ (OffloadHook.validate env o).1.diffusers_offload_min_gpu_memory
        ≤ (OffloadHook.validate env o).1.diffusers_offload_max_gpu_memory := by
  have hne : ¬(o.diffusers_offload_mode ≠ "balanced") := fun h => h hmode
  simp only [OffloadHook.validate, if_neg hne]
  split_ifs with h1 h2 h3 h4 <;>
    (try simp only [not_or, not_lt] at *) <;>
    (try casesm* _ ∧ _) <;>
    refine ⟨?_, ?_, ?_, ?_, ?_⟩ <;>
    linarith

theorem validate_warn_low (env : SharedEnv) (o : Opts)
    (hmode : o.diffusers_offload_mode = "balanced")
    (hbad : o.diffusers_offload_min_gpu_memory < 0 ∨ o.diffusers_offload_min_gpu_memory > 1) :
    "watermark low invalid value" ∈ (OffloadHook.validate env o).2 := by
  have hne : ¬(o.diffusers_offload_mode ≠ "balanced") := fun h => h hmode
  simp only [OffloadHook.validate, if_neg hne, if_pos hbad]
  split_ifs <;> simp

theorem validate_warn_high (env : SharedEnv) (o : Opts)
    (hmode : o.diffusers_offload_mode = "balanced")
    (hbad : o.diffusers_offload_max_gpu_memory < 1/10 ∨ o.diffusers_offload_max_gpu_memory > 1) :
    "watermark high invalid value" ∈ (OffloadHook.validate env o).2 := by
  have hne : ¬(o.diffusers_offload_mode ≠ "balanced") := fun h => h hmode
  simp only [OffloadHook.validate, if_neg hne, if_pos hbad]
  split_ifs <;> simp

theorem validate_no_warn_high (env : SharedEnv) (o : Opts)
    (hmode : o.diffusers_offload_mode = "balanced")
    (hgood : 1/10 ≤ o.diffusers_offload_max_gpu_memory
      ∧ o.diffusers_offload_max_gpu_memory ≤ 1) :
    "watermark high invalid value" ∉ (OffloadHook.validate env o).2
    ∧ (OffloadHook.validate env o).1.diffusers_offload_max_gpu_memory
        = o.diffusers_offload_max_gpu_memory := by
  have hne : ¬(o.diffusers_offload_mode ≠ "balanced") := fun h => h hmode
  have hnh : ¬(o.diffusers_offload_max_gpu_memory < 1/10
      ∨ o.diffusers_offload_max_gpu_memory > 1) := by
    push_neg
    exact hgood
  simp only [OffloadHook.validate, if_neg hne, if_neg hnh]
  split_ifs <;> exact ⟨by decide, trivial⟩

theorem validate_ord_reset (env : SharedEnv) (o : Opts)
    (hmode : o.diffusers_offload_mode = "balanced")
    (h0 : 0 ≤ o.diffusers_offload_min_gpu_memory)
    (h1 : o.diffusers_offload_min_gpu_memory ≤ 1)
    (h2 : 1/10 ≤ o.diffusers_offload_max_gpu_memory)
    (h3 : o.diffusers_offload_max_gpu_memory ≤ 1)
    (hlt : o.diffusers_offload_max_gpu_memory < o.diffusers_offload_min_gpu_memory) :
    "watermark low reset" ∈ (OffloadHook.validate env o).2
    ∧ (OffloadHook.validate env o).1.diffusers_offload_min_gpu_memory
        = o.diffusers_offload_max_gpu_memory := by
  have hne : ¬(o.diffusers_offload_mode ≠ "balanced") := fun h => h hmode
  have hnl : ¬(o.diffusers_offload_min_gpu_memory < 0
      ∨ o.diffusers_offload_min_gpu_memory > 1) := by
    push_neg
    exact ⟨h0, h1⟩
  have hnh : ¬(o.diffusers_offload_max_gpu_memory < 1/10
      ∨ o.diffusers_offload_max_gpu_memory > 1) := by
    push_neg
    exact ⟨h2, h3⟩
  have hgt : o.diffusers_offload_min_gpu_memory > o.diffusers_offload_max_gpu_memory := hlt
  simp only [OffloadHook.validate, if_neg hne, if_neg hnl, if_neg hnh, if_pos hgt]
  split_ifs <;> exact ⟨by simp, trivial⟩

/-- C4 counterexample: a low watermark of 0 — outside (0,1] — is accepted
unchanged with no warning, and a high watermark of 1.5 is silently clamped to
0.75 with no warning logged for the correction. -/
theorem watermark_clamp_cex :
    ((OffloadHook.init envA ⟨"balanced", 0, 1/2, 1/2, true⟩ "ckpt").opts.diffusers_offload_min_gpu_memory = 0
      ∧ (OffloadHook.init envA ⟨"balanced", 0, 1/2, 1/2, true⟩ "ckpt").warns = [])
    ∧ ((OffloadHook.init envA ⟨"balanced", 1/2, 3/2, 1/2, true⟩ "ckpt").opts.diffusers_offload_max_gpu_memory = 3/4
      ∧ (OffloadHook.init envA ⟨"balanced", 1/2, 3/2, 1/2, true⟩ "ckpt").warns = []) := by
  refine ⟨⟨?_, ?_⟩, ?_, ?_⟩ <;>
    norm_num [OffloadHook.init, OffloadHook.preclamp, OffloadHook.validate, envA]

/-- C4 amended: constructing an `OffloadHook` in balanced mode never raises
(the constructor is a total function) and corrects the option values so that
afterwards the low watermark lies in `[0,1]` (a zero low watermark is kept),
the high watermark lies in `[0.1,1]`, and low ≤ high; the validation step logs
a warning for the corrections it makes, but a high watermark above 1 is first
silently clamped to 0.75 without any warning. -/
theorem watermark_clamp_amended (env : SharedEnv) (opts : Opts) (name : String)
    (hmode : opts.diffusers_offload_mode = "balanced") :
    (0 ≤ (OffloadHook.init env opts name).opts.diffusers_offload_min_gpu_memory
      ∧ (OffloadHook.init env opts name).opts.diffusers_offload_min_gpu_memory ≤ 1
      ∧ 1/10 ≤ (OffloadHook.init env opts name).opts.diffusers_offload_max_gpu_memory
      ∧ (OffloadHook.init env opts name).opts.diffusers_offload_max_gpu_memory ≤ 1
      ∧ (OffloadHook.init env opts name).opts.diffusers_offload_min_gpu_memory
          ≤ (OffloadHook.init env opts name).opts.diffusers_offload_max_gpu_memory)
    ∧ ((opts.diffusers_offload_min_gpu_memory < 0 ∨ opts.diffusers_offload_min_gpu_memory > 1) →
        "watermark low invalid value" ∈ (OffloadHook.init env opts name).warns)
    ∧ (opts.diffusers_offload_max_gpu_memory < 1/10 →
        "watermark high invalid value" ∈ (OffloadHook.init env opts name).warns)
    ∧ (opts.diffusers_offload_max_gpu_memory > 1 →
        (OffloadHook.init env opts name).opts.diffusers_offload_max_gpu_memory = 3/4
        ∧ "watermark high invalid value" ∉ (OffloadHook.init env opts name).warns)
    ∧ ((0 ≤ opts.diffusers_offload_min_gpu_memory ∧ opts.diffusers_offload_min_gpu_memory ≤ 1
        ∧ 1/10 ≤ opts.diffusers_offload_max_gpu_memory ∧ opts.diffusers_offload_max_gpu_memory ≤ 1
        ∧ opts.diffusers_offload_max_gpu_memory < opts.diffusers_offload_min_gpu_memory) →
        "watermark low reset" ∈ (OffloadHook.init env opts name).warns
        ∧ (OffloadHook.init env opts name).opts.diffusers_offload_min_gpu_memory
            = opts.diffusers_offload_max_gpu_memory) := by
  have hmode2 : (OffloadHook.preclamp opts).diffusers_offload_mode = "balanced" := by
    rw [preclamp_mode]
    exact hmode
  simp only [init_opts_eq, init_warns_eq]
  refine ⟨?_, ?_, ?_, ?_, ?_⟩
  · exact validate_bounds env _ hmode2
  · intro hbad
    refine validate_warn_low env _ hmode2 ?_
    rw [preclamp_min]
    exact hbad
  · intro hlow
    refine validate_warn_high env _ hmode2 ?_
    left
    rw [preclamp_max, if_neg (by linarith : ¬opts.diffusers_offload_max_gpu_memory > 1)]
    exact hlow
  · intro hhigh
    have hpm : (OffloadHook.preclamp opts).diffusers_offload_max_gpu_memory = 3/4 := by
      rw [preclamp_max, if_pos hhigh]
    have hng := validate_no_warn_high env (OffloadHook.preclamp opts) hmode2
      (by rw [hpm]; norm_num)
    exact ⟨by rw [hng.2, hpm], hng.1⟩
  · intro hs
    obtain ⟨ha, hb, hc, hd, he⟩ := hs
    have hpmin : (OffloadHook.preclamp opts).diffusers_offload_min_gpu_memory
        = opts.diffusers_offload_min_gpu_memory := preclamp_min opts
    have hpmax : (OffloadHook.preclamp opts).diffusers_offload_max_gpu_memory
        = opts.diffusers_offload_max_gpu_memory := by
      rw [preclamp_max, if_neg (by linarith : ¬opts.diffusers_offload_max_gpu_memory > 1)]
    have hr := validate_ord_reset env (OffloadHook.preclamp opts) hmode2
      (by rw [hpmin]; exact ha) (by rw [hpmin]; exact hb)
      (by rw [hpmax]; exact hc) (by rw [hpmax]; exact hd)
      (by rw [hpmin, hpmax]; exact he)
    exact ⟨hr.1, by rw [hr.2, hpmax]⟩

/-- Witness for C4 amended at a low watermark of 1.5 with valid high watermark. -/
theorem watermark_clamp_amended_witness :
    0 ≤ (OffloadHook.init envA ⟨"balanced", 3/2, 1/2, 1/2, true⟩ "ckpt").opts.diffusers_offload_min_gpu_memory
    ∧ "watermark low invalid value" ∈ (OffloadHook.init envA ⟨"balanced", 3/2, 1/2, 1/2, true⟩ "ckpt").warns :=
  ⟨(watermark_clamp_amended envA ⟨"balanced", 3/2, 1/2, 1/2, true⟩ "ckpt" rfl).1.1,
   (watermark_clamp_amended envA ⟨"balanced", 3/2, 1/2, 1/2, true⟩ "ckpt" rfl).2.1
     (Or.inr (by norm_num))⟩

theorem lookupQ_nil (k : String) : lookupQ [] k = none := rfl

theorem lookupQ_cons (x : String × ℚ) (l : List (String × ℚ)) (k : String) :
    lookupQ (x :: l) k = if x.1 == k then some x.2 else lookupQ l k := by
  by_cases h : x.1 == k
  · simp [lookupQ, List.find?_cons_of_pos, h]
  · simp only [Bool.not_eq_true] at h
    simp [lookupQ, List.find?_cons_of_neg, h]

theorem lookupQ_append (a b : List (String × ℚ)) (k : String) :
    lookupQ (a ++ b) k =
      match lookupQ a k with
      | some v => some v
      | none => lookupQ b k := by
  induction a with
  | nil => simp [lookupQ_nil]
  | cons x xs ih =>
    by_cases h : x.1 == k <;>
      simp [List.cons_append, lookupQ_cons, h, ih]

theorem mem_insertBySize (x y : String × ℚ) (l : List (String × ℚ)) :
    y ∈ insertBySize x l ↔ y = x ∨ y ∈ l := by
  induction l with
  | nil => simp [insertBySize]
  | cons z zs ih =>
    simp only [insertBySize]
    split_ifs with h
    · simp [List.mem_cons]
    · simp only [List.mem_cons, ih]
      tauto

theorem mem_sortBySizeDesc (y : String × ℚ) (l : List (String × ℚ)) :
    y ∈ sortBySizeDesc l ↔ y ∈ l := by
  induction l with
  | nil => simp [sortBySizeDesc]
  | cons x xs ih =>
    simp only [sortBySizeDesc, List.foldr] at ih ⊢
    simp [mem_insertBySize, ih, List.mem_cons]

theorem applyOne_names (env : SharedEnv) (opts : Opts) (ckpt : String) (it : String × ℚ)
    (s : ℚ × Effects × List PipeModule) :
    namesOf (applyOne env opts ckpt it s).2.2 = namesOf s.2.2 := by
  obtain ⟨u, eff, mods⟩ := s
  simp only [applyOne]
  cases hfind : mods.find? (fun x => x.name == it.1) with
  | none => rfl
  | some m0 =>
    have h0 : (m0.name == it.1) = true := by
      have := List.find?_some hfind
      simpa using this
    simp only [namesOf, List.map_map]
    apply List.map_congr_left
    intro x _
    simp only [Function.comp]
    by_cases h : (x.name == it.1) = true
    · rw [if_pos h]
      show m0.name = x.name
      have e0 : m0.name = it.1 := by simpa using h0
      have e1 : x.name = it.1 := by simpa using h
      rw [e0, e1]
    · rw [if_neg h]

theorem applyOne_hookState (env : SharedEnv) (opts : Opts) (ckpt : String) (it : String × ℚ)
    (s : ℚ × Effects × List PipeModule) :
    hookState (applyOne env opts ckpt it s).2.2
      = (hookState s.2.2).map (fun nh => (nh.1, nh.2 || (nh.1 == it.1))) := by
  obtain ⟨u, eff, mods⟩ := s
  simp only [applyOne]
  cases hfind : mods.find? (fun x => x.name == it.1) with
  | none =>
    have hall := List.find?_eq_none.mp hfind
    simp only [hookState, List.map_map]
    symm
    apply List.map_congr_left
    intro x hx
    simp only [Function.comp]
    have hfalse : (x.name == it.1) = false := by
      have := hall x hx
      simpa using this
    rw [hfalse, Bool.or_false]
  | some m0 =>
    have h0 : (m0.name == it.1) = true := by simpa using List.find?_some hfind
    simp only [hookState, List.map_map]
    apply List.map_congr_left
    intro x _
    simp only [Function.comp]
    by_cases h : (x.name == it.1) = true
    · rw [if_pos h]
      show (m0.name, true) = (x.name, x.hooked || (x.name == it.1))
      have e0 : m0.name = it.1 := by simpa using h0
      have e1 : x.name = it.1 := by simpa using h
      rw [h, Bool.or_true, e0, e1]
    · rw [if_neg h]
      rw [Bool.not_eq_true] at h
      rw [h, Bool.or_false]

theorem applyOne_nnState (env : SharedEnv) (opts : Opts) (ckpt : String) (it : String × ℚ)
    (s : ℚ × Effects × List PipeModule) (hnodup : (namesOf s.2.2).Nodup) :
    nnState (applyOne env opts ckpt it s).2.2 = nnState s.2.2 := by
  obtain ⟨u, eff, mods⟩ := s
  simp only [applyOne]
  cases hfind : mods.find? (fun x => x.name == it.1) with
  | none => rfl
  | some m0 =>
    have h0 : (m0.name == it.1) = true := by simpa using List.find?_some hfind
    have hm0 : m0 ∈ mods := List.mem_of_find?_eq_some hfind
    simp only [nnState, List.map_map]
    apply List.map_congr_left
    intro x hx
    simp only [Function.comp]
    by_cases h : (x.name == it.1) = true
    · rw [if_pos h]
      have e0 : m0.name = it.1 := by simpa using h0
      have e1 : x.name = it.1 := by simpa using h
      have hxy : x = m0 := by
        have hnodup' : (mods.map (fun m : PipeModule => m.name)).Nodup := hnodup
        exact List.inj_on_of_nodup_map hnodup' hx hm0 (e1.trans e0.symm)
      rw [hxy]
    · rw [if_neg h]

theorem applyFold_names (env : SharedEnv) (opts : Opts) (ckpt : String)
    (sorted : List (String × ℚ)) (s : ℚ × Effects × List PipeModule) :
    namesOf ((sorted.foldl (fun s it => applyOne env opts ckpt it s) s)).2.2
      = namesOf s.2.2 := by
  induction sorted generalizing s with
  | nil => rfl
  | cons it rest ih => rw [List.foldl_cons, ih, applyOne_names]

theorem applyFold_hookState (env : SharedEnv) (opts : Opts) (ckpt : String)
    (sorted : List (String × ℚ)) (s : ℚ × Effects × List PipeModule) :
    hookState ((sorted.foldl (fun s it => applyOne env opts ckpt it s) s)).2.2
      = (hookState s.2.2).map
          (fun nh => (nh.1, nh.2 || sorted.any (fun it => nh.1 == it.1))) := by
  induction sorted generalizing s with
  | nil =>
    simp only [List.foldl_nil, List.any_nil, Bool.or_false]
    exact (List.map_id (hookState s.2.2)).symm
  | cons it rest ih =>
    rw [List.foldl_cons, ih, applyOne_hookState, List.map_map]
    apply List.map_congr_left
    intro nh _
    simp only [Function.comp, List.any_cons]
    rw [Bool.or_assoc]

theorem applyFold_nnState (env : SharedEnv) (opts : Opts) (ckpt : String)
    (sorted : List (String × ℚ)) (s : ℚ × Effects × List PipeModule)
    (hnodup : (namesOf s.2.2).Nodup) :
    nnState ((sorted.foldl (fun s it => applyOne env opts ckpt it s) s)).2.2
      = nnState s.2.2 := by
  induction sorted generalizing s with
  | nil => rfl
  | cons it rest ih =>
    have h2 : (namesOf (applyOne env opts ckpt it s).2.2).Nodup := by
      rw [applyOne_names]
      exact hnodup
    rw [List.foldl_cons, ih _ h2, applyOne_nnState env opts ckpt it s hnodup]

theorem applyOne_exec_invariant (env : SharedEnv) (opts : Opts) (ckpt : String)
    (it : String × ℚ) (s : ℚ × Effects × List PipeModule)
    (hinv : ∀ m ∈ s.2.2, m.hooked = true → m.execution_device = some Device.accel) :
    ∀ m ∈ (applyOne env opts ckpt it s).2.2, m.hooked = true →
      m.execution_device = some Device.accel := by
  obtain ⟨u, eff, mods⟩ := s
  intro m hm
  simp only [applyOne] at hm
  split at hm
  · exact hinv m hm
  · simp only [List.mem_map] at hm
    obtain ⟨x, hx, hxe⟩ := hm
    by_cases h : (x.name == it.1) = true
    · rw [if_pos h] at hxe
      subst hxe
      intro _
      rfl
    · rw [if_neg h] at hxe
      subst hxe
      exact hinv x hx

theorem applyFold_exec_invariant (env : SharedEnv) (opts : Opts) (ckpt : String)
    (sorted : List (String × ℚ)) :
    ∀ s : ℚ × Effects × List PipeModule,
      (∀ m ∈ s.2.2, m.hooked = true → m.execution_device = some Device.accel) →
      ∀ m ∈ (sorted.foldl (fun s it => applyOne env opts ckpt it s) s).2.2,
        m.hooked = true → m.execution_device = some Device.accel := by
  induction sorted with
  | nil => intro s h; exact h
  | cons it rest ih =>
    intro s h
    rw [List.foldl_cons]
    exact ih _ (applyOne_exec_invariant env opts ckpt it s h)

theorem namesOf_eq_of_nnState {l₁ l₂ : List PipeModule} (h : nnState l₁ = nnState l₂) :
    namesOf l₁ = namesOf l₂ := by
  have h2 : (nnState l₁).map Prod.fst = (nnState l₂).map Prod.fst := by rw [h]
  simpa [nnState, namesOf, List.map_map, Function.comp] using h2

theorem nnState_mem {l₁ l₂ : List PipeModule} (h : nnState l₁ = nnState l₂) :
    ∀ m ∈ l₂, ∃ mp ∈ l₁, mp.name = m.name ∧ mp.isNN = m.isNN := by
  intro m hm
  have hmem : (m.name, m.isNN) ∈ nnState l₂ := List.mem_map_of_mem _ hm
  rw [← h] at hmem
  simp only [nnState, List.mem_map] at hmem
  obtain ⟨mp, hmp, he⟩ := hmem
  injection he with h1 h2
  exact ⟨mp, hmp, h1, h2⟩

theorem nnState_filter (p : String → Bool) {l₁ l₂ : List PipeModule}
    (h : nnState l₁ = nnState l₂) :
    nnState (l₁.filter (fun m => p m.name)) = nnState (l₂.filter (fun m => p m.name)) := by
  induction l₁ generalizing l₂ with
  | nil =>
    cases l₂ with
    | nil => rfl
    | cons b bs => simp [nnState] at h
  | cons a as ih =>
    cases l₂ with
    | nil => simp [nnState] at h
    | cons b bs =>
      simp only [nnState, List.map_cons, List.cons.injEq] at h
      obtain ⟨hh, ht⟩ := h
      injection hh with hn hi
      simp only [List.filter_cons, hn]
      by_cases hp : p b.name = true
      · rw [if_pos hp, if_pos hp]
        simp only [nnState, List.map_cons, List.cons.injEq]
        refine ⟨?_, ?_⟩
        · rw [hn, hi]
        · have := @ih bs ht
          simpa [nnState] using this
      · rw [if_neg hp, if_neg hp]
        have := @ih bs ht
        simpa [nnState] using this

theorem filterMap_lookup_eq (M : List (String × ℚ)) {l₁ l₂ : List PipeModule}
    (h : namesOf l₁ = namesOf l₂) :
    l₁.filterMap (fun m => (lookupQ M m.name).map (fun v => (m.name, v)))
      = l₂.filterMap (fun m => (lookupQ M m.name).map (fun v => (m.name, v))) := by
  induction l₁ generalizing l₂ with
  | nil =>
    cases l₂ with
    | nil => rfl
    | cons b bs => simp [namesOf] at h
  | cons a as ih =>
    cases l₂ with
    | nil => simp [namesOf] at h
    | cons b bs =>
      simp only [namesOf, List.map_cons, List.cons.injEq] at h
      obtain ⟨hn, ht⟩ := h
      simp only [List.filterMap_cons, hn]
      have hrec : as.filterMap (fun m => (lookupQ M m.name).map (fun v => (m.name, v)))
          = bs.filterMap (fun m => (lookupQ M m.name).map (fun v => (m.name, v))) := by
        exact @ih bs (by simpa [namesOf] using ht)
      rw [hrec]

theorem gpmAux_cached (hook : OffloadHook) (mods : List PipeModule) :
    ∀ (acc : List (String × ℚ)) (cnt : ℕ) (pb : Option ℚ),
      (∀ m ∈ mods, m.isNN = true → lookupQ hook.offload_map m.name ≠ none) →
      (∀ m ∈ mods, m.isNN = false → lookupQ hook.offload_map m.name = none) →
      gpmAux hook pb acc cnt mods
        = .ok (hook, acc ++ mods.filterMap
            (fun m => (lookupQ hook.offload_map m.name).map (fun v => (m.name, v))), cnt) := by
  induction mods with
  | nil =>
    intro acc cnt pb _ _
    simp [gpmAux]
  | cons m rest ih =>
    intro acc cnt pb hhit hmiss
    have hhit' : ∀ m' ∈ rest, m'.isNN = true → lookupQ hook.offload_map m'.name ≠ none :=
      fun m' hm' => hhit m' (List.mem_cons_of_mem _ hm')
    have hmiss' : ∀ m' ∈ rest, m'.isNN = false → lookupQ hook.offload_map m'.name = none :=
      fun m' hm' => hmiss m' (List.mem_cons_of_mem _ hm')
    simp only [gpmAux]
    cases hl : lookupQ hook.offload_map m.name with
    | some sz =>
      show gpmAux hook pb (acc ++ [(m.name, sz)]) cnt rest
        = .ok (hook, acc ++ (m :: rest).filterMap
            (fun m => (lookupQ hook.offload_map m.name).map (fun v => (m.name, v))), cnt)
      rw [ih (acc ++ [(m.name, sz)]) cnt pb hhit' hmiss']
      simp [List.filterMap_cons, hl, List.append_assoc]
    | none =>
      have hnn : m.isNN = false := by
        cases hcase : m.isNN with
        | false => rfl
        | true => exact absurd hl (hhit m (List.mem_cons_self _ _) hcase)
      show (if m.isNN = true then _ else gpmAux hook pb acc cnt rest)
        = .ok (hook, acc ++ (m :: rest).filterMap
            (fun m => (lookupQ hook.offload_map m.name).map (fun v => (m.name, v))), cnt)
      rw [if_neg (by simp [hnn])]
      rw [ih acc cnt pb hhit' hmiss']
      simp [List.filterMap_cons, hl]

theorem gpm_fresh_step
    (hook hookp hook2 : OffloadHook) (m : PipeModule) (rest : List PipeModule)
    (acc acc2 : List (String × ℚ)) (v w : ℚ)
    (hhookp : hookp = { hook with
        offload_map := hook.offload_map ++ [(m.name, v)]
        param_map := hook.param_map ++ [(m.name, w)] })
    (hm0 : lookupQ hook.offload_map m.name = none)
    (hnn : m.isNN = true)
    (A1 : acc2 = (acc ++ [(m.name, v)]) ++ rest.filterMap
        (fun m => (lookupQ hook2.offload_map m.name).map (fun x => (m.name, x))))
    (A2 : ∀ mp ∈ rest, mp.isNN = true → lookupQ hook2.offload_map mp.name ≠ none)
    (A3 : ∀ n, lookupQ hook2.offload_map n = lookupQ hookp.offload_map n
        ∨ ∃ mp, mp ∈ rest ∧ mp.name = n ∧ mp.isNN = true)
    (A4 : hook2 = {hookp with offload_map := hook2.offload_map, param_map := hook2.param_map})
    (A5 : ∀ n x, lookupQ hookp.offload_map n = some x → lookupQ hook2.offload_map n = some x) :
    (acc2 = acc ++ (m :: rest).filterMap
        (fun m => (lookupQ hook2.offload_map m.name).map (fun x => (m.name, x))))
    ∧ (∀ mp ∈ m :: rest, mp.isNN = true → lookupQ hook2.offload_map mp.name ≠ none)
    ∧ (∀ n, lookupQ hook2.offload_map n = lookupQ hook.offload_map n
        ∨ ∃ mp, mp ∈ m :: rest ∧ mp.name = n ∧ mp.isNN = true)
    ∧ hook2 = {hook with offload_map := hook2.offload_map, param_map := hook2.param_map}
    ∧ (∀ n x, lookupQ hook.offload_map n = some x → lookupQ hook2.offload_map n = some x) := by
  subst hhookp
  have hself : lookupQ (hook.offload_map ++ [(m.name, v)]) m.name = some v := by
    rw [lookupQ_append, hm0]
    show lookupQ [(m.name, v)] m.name = some v
    rw [lookupQ_cons]
    simp
  have hmono : ∀ n x, lookupQ hook.offload_map n = some x →
      lookupQ (hook.offload_map ++ [(m.name, v)]) n = some x := by
    intro n x hx
    rw [lookupQ_append, hx]
  have hhead : lookupQ hook2.offload_map m.name = some v := A5 _ _ hself
  refine ⟨?_, ?_, ?_, ?_, ?_⟩
  · rw [A1]
    simp [List.filterMap_cons, hhead, List.append_assoc]
  · intro mp hmp
    rcases List.mem_cons.mp hmp with he | hmr
    · subst he
      intro _
      rw [hhead]
      simp
    · exact A2 mp hmr
  · intro n
    by_cases hn : m.name = n
    · exact Or.inr ⟨m, List.mem_cons_self _ _, hn, hnn⟩
    · rcases A3 n with hA | ⟨mp, hmp, hname, hnnp⟩
      · left
        rw [hA, lookupQ_append]
        cases hc : lookupQ hook.offload_map n with
        | some xx => rfl
        | none =>
          show lookupQ [(m.name, v)] n = none
          rw [lookupQ_cons]
          simp [hn, lookupQ_nil]
      · exact Or.inr ⟨mp, List.mem_cons_of_mem _ hmp, hname, hnnp⟩
  · exact A4
  · intro n x hx
    exact A5 _ _ (hmono _ _ hx)

theorem gpmAux_fresh (mods : List PipeModule) :
    ∀ (hook : OffloadHook) (pb : Option ℚ) (acc : List (String × ℚ)) (cnt : ℕ)
      (hook2 : OffloadHook) (acc2 : List (String × ℚ)) (cnt2 : ℕ),
      (∀ m ∈ mods, lookupQ hook.offload_map m.name = none) →
      (namesOf mods).Nodup →
      gpmAux hook pb acc cnt mods = .ok (hook2, acc2, cnt2) →
      (acc2 = acc ++ mods.filterMap
          (fun m => (lookupQ hook2.offload_map m.name).map (fun v => (m.name, v))))
      ∧ (∀ m ∈ mods, m.isNN = true → lookupQ hook2.offload_map m.name ≠ none)
      ∧ (∀ n, lookupQ hook2.offload_map n = lookupQ hook.offload_map n
          ∨ ∃ m, m ∈ mods ∧ m.name = n ∧ m.isNN = true)
      ∧ hook2 = {hook with offload_map := hook2.offload_map, param_map := hook2.param_map}
      ∧ (∀ n v, lookupQ hook.offload_map n = some v → lookupQ hook2.offload_map n = some v) := by
  induction mods with
  | nil =>
    intro hook pb acc cnt hook2 acc2 cnt2 hfresh hnodup hres
    simp only [gpmAux, Except.ok.injEq, Prod.mk.injEq] at hres
    obtain ⟨h1, h2, h3⟩ := hres
    subst h1
    subst h2
    refine ⟨by simp, by simp, fun n => Or.inl rfl, rfl, fun n v h => h⟩
  | cons m rest ih =>
    intro hook pb acc cnt hook2 acc2 cnt2 hfresh hnodup hres
    have hm0 : lookupQ hook.offload_map m.name = none := hfresh m (List.mem_cons_self _ _)
    have hnodupc : (namesOf (m :: rest)) = m.name :: namesOf rest := rfl
    rw [hnodupc] at hnodup
    have hnodup' : (namesOf rest).Nodup := hnodup.of_cons
    have hnotin : m.name ∉ namesOf rest := (List.nodup_cons.mp hnodup).1
    have hneq : ∀ mp ∈ rest, (m.name == mp.name) = false := by
      intro mp hmp
      have : mp.name ∈ namesOf rest := List.mem_map_of_mem _ hmp
      have hne : m.name ≠ mp.name := fun he => hnotin (he ▸ this)
      simpa using hne
    have hfreshr : ∀ mp ∈ rest, lookupQ hook.offload_map mp.name = none :=
      fun mp hmp => hfresh mp (List.mem_cons_of_mem _ hmp)
    have hfreshp : ∀ (v : ℚ), ∀ mp ∈ rest,
        lookupQ (hook.offload_map ++ [(m.name, v)]) mp.name = none := by
      intro v mp hmp
      rw [lookupQ_append, hfreshr mp hmp]
      show lookupQ [(m.name, v)] mp.name = none
      rw [lookupQ_cons]
      simp [hneq mp hmp, lookupQ_nil]
    simp only [gpmAux] at hres
    split at hres
    · -- cache hit: impossible, the map has no entry for this module
      rename_i sz hl
      rw [hm0] at hl
      exact Option.noConfusion hl
    · rename_i hl
      split at hres
      · -- isNN: the size computation ran
        rename_i hnn
        split at hres
        · -- sizeCalc succeeded
          rename_i sz pn hsz
          have hA := ih _ (some pn) (acc ++ [(m.name, sz)]) (cnt + 1) hook2 acc2 cnt2
            (hfreshp sz) hnodup' hres
          exact gpm_fresh_step hook _ hook2 m rest acc acc2 sz pn rfl hm0 hnn
            hA.1 hA.2.1 hA.2.2.1 hA.2.2.2.1 hA.2.2.2.2
        · -- sizeCalc raised
          rename_i e hsz
          cases pb with
          | none => exact Except.noConfusion hres
          | some stale =>
            have hA := ih _ (some stale) (acc ++ [(m.name, 0)]) (cnt + 1) hook2 acc2 cnt2
              (hfreshp 0) hnodup' hres
            exact gpm_fresh_step hook _ hook2 m rest acc acc2 0 stale rfl hm0 hnn
              hA.1 hA.2.1 hA.2.2.1 hA.2.2.2.1 hA.2.2.2.2
      · -- not a torch module: skipped
        rename_i hnn
        have hnnf : m.isNN = false := by
          cases hc : m.isNN with
          | false => rfl
          | true => exact absurd hc hnn
        obtain ⟨A1, A2, A3, A4, A5⟩ := ih hook pb acc cnt hook2 acc2 cnt2 hfreshr hnodup' hres
        have hnone : lookupQ hook2.offload_map m.name = none := by
          rcases A3 m.name with hA | ⟨mp, hmp, hname, _⟩
          · rw [hA, hm0]
          · exact absurd (hname ▸ List.mem_map_of_mem (fun m => m.name) hmp) hnotin
        refine ⟨?_, ?_, ?_, A4, A5⟩
        · rw [A1]
          simp [List.filterMap_cons, hnone]
        · intro mp hmp
          rcases List.mem_cons.mp hmp with he | hmr
          · subst he
            intro hc
            exact absurd (hnnf ▸ hc) (by simp)
          · exact A2 mp hmr
        · intro n
          rcases A3 n with hA | ⟨mp, hmp, hname, hnnp⟩
          · exact Or.inl hA
          · exact Or.inr ⟨mp, List.mem_cons_of_mem _ hmp, hname, hnnp⟩

/-- C9: every submodule processed by the orchestrator loop (observable as:
carrying the hook after a pass that started with no hooks attached), and every
submodule the placement hook dispatches, has its declared execution (output)
device set to the accelerator device, regardless of where its weights reside. -/
theorem execution_device_pinned :
    (∀ (env : SharedEnv) (opts : Opts) (ckpt : String) (exclude : List String)
       (hook hook2 : OffloadHook) (mods mods2 : List PipeModule) (cnt : ℕ) (eff : Effects),
        (∀ m ∈ mods, m.hooked = false) →
        applyBalancedOffloadToModule env opts ckpt exclude hook mods
          = .ok (hook2, mods2, cnt, eff) →
        ∀ m ∈ mods2, m.hooked = true → m.execution_device = some Device.accel)
    ∧ (∀ (hook : OffloadHook) (build : MaxMemory → Except String DeviceMap)
         (m m2 : PipeModule), m.device ≠ Device.accel →
        preForward hook build m = .ok m2 → m2.execution_device = some Device.accel) := by
  constructor
  · intro env opts ckpt excl hook hook2 mods mods2 cnt eff hunhooked happly
    simp only [applyBalancedOffloadToModule] at happly
    split at happly
    · exact Except.noConfusion happly
    · rename_i hk sorted c hg
      simp only [Except.ok.injEq, Prod.mk.injEq] at happly
      obtain ⟨h1, h2eq, h3, h4⟩ := happly
      subst h2eq
      refine applyFold_exec_invariant env opts ckpt sorted (env.usedGpu, ⟨0, []⟩, mods) ?_
      intro m' hm' htrue
      exact absurd htrue (by simp [hunhooked m' hm'])
  · intro hook build m m2 hdev hpf
    simp only [preForward] at hpf
    rw [if_neg hdev] at hpf
    split at hpf
    · exact Except.noConfusion hpf
    · rename_i dm hdm
      simp only [Except.ok.injEq] at hpf
      subst hpf
      rfl

/-- Witness for C9: after one orchestrator pass over the text encoder, the
hooked module has its execution device pinned, and a concrete placement-hook
dispatch pins it as well. -/
theorem execution_device_pinned_witness :
    (∀ m ∈ [mTEdone], m.hooked = true → m.execution_device = some Device.accel)
    ∧ ∃ m2, preForward hookA (fun _ => .ok [("weight", Device.accel)]) mHostNoMap = .ok m2
        ∧ m2.execution_device = some Device.accel := by
  refine ⟨execution_device_pinned.1 envA optsA "ckpt" [] hookA hookA [mTE] [mTEdone] 0 ⟨0, []⟩
      (by simp [mTE]) ?_,
    ⟨_, rfl, execution_device_pinned.2 hookA (fun _ => .ok [("weight", Device.accel)])
      mHostNoMap _ (by simp [mHostNoMap]) rfl⟩⟩
  norm_num [applyBalancedOffloadToModule, getPipeModules, gpmAux, keepName,
    strBeginsWith, listBeginsWith, lookupQ, sortBySizeDesc, insertBySize, applyOne,
    strContains, containsSub, offload_post_types, mTE, mTEdone, hookA, envA, optsA]
  exact ⟨⟨rfl, rfl⟩, rfl⟩

theorem validate_noop (env : SharedEnv) (o : Opts)
    (hmode : o.diffusers_offload_mode = "balanced")
    (h0 : 0 ≤ o.diffusers_offload_min_gpu_memory)
    (h1 : o.diffusers_offload_min_gpu_memory ≤ o.diffusers_offload_max_gpu_memory)
    (h2 : 1/10 ≤ o.diffusers_offload_max_gpu_memory)
    (h3 : o.diffusers_offload_max_gpu_memory ≤ 1) :
    (OffloadHook.validate env o).1 = o := by
  have hne : ¬(o.diffusers_offload_mode ≠ "balanced") := fun h => h hmode
  have hnl : ¬(o.diffusers_offload_min_gpu_memory < 0
      ∨ o.diffusers_offload_min_gpu_memory > 1) := by
    push_neg
    exact ⟨h0, le_trans h1 h3⟩
  have hnh : ¬(o.diffusers_offload_max_gpu_memory < 1/10
      ∨ o.diffusers_offload_max_gpu_memory > 1) := by
    push_neg
    exact ⟨h2, h3⟩
  have hno : ¬(o.diffusers_offload_min_gpu_memory > o.diffusers_offload_max_gpu_memory) :=
    not_lt.mpr h1
  simp only [OffloadHook.validate, if_neg hne, if_neg hnl, if_neg hnh, if_neg hno]

theorem first_call_spec (env : SharedEnv) (opts : Opts) (pipe : Pipe) (exclude : List String)
    (r₁ : ApplyResult)
    (hmode : opts.diffusers_offload_mode = "balanced")
    (hexcl : pipe.className ∉ balanced_offload_exclude)
    (hmin0 : 0 ≤ opts.diffusers_offload_min_gpu_memory)
    (hminmax : opts.diffusers_offload_min_gpu_memory ≤ opts.diffusers_offload_max_gpu_memory)
    (hmaxlo : 1/10 ≤ opts.diffusers_offload_max_gpu_memory)
    (hmaxhi : opts.diffusers_offload_max_gpu_memory ≤ 1)
    (hnodup : (namesOf pipe.modules).Nodup)
    (h1 : applyBalancedOffload env none opts pipe exclude = .ok r₁) :
    ∃ (hookG : OffloadHook) (sorted : List (String × ℚ)) (c : ℕ) (eff : Effects)
      (warns : List String),
      r₁ = ⟨some hookG, OffloadHook.preclamp opts,
          {pipe with modules := (sorted.foldl
              (fun s it => applyOne env (OffloadHook.preclamp opts)
                (pipe.sd_checkpoint_info.getD pipe.className) it s)
              (env.usedGpu, ⟨0, []⟩, pipe.modules)).2.2},
          c, true, warns, eff⟩
      ∧ hookG.min_watermark = opts.diffusers_offload_min_gpu_memory
      ∧ hookG.max_watermark = opts.diffusers_offload_max_gpu_memory
      ∧ hookG.checkpoint_name = pipe.sd_checkpoint_info.getD pipe.className
      ∧ hookG.cpu_watermark = (OffloadHook.preclamp opts).diffusers_offload_max_cpu_memory
      ∧ hookG.cpu = pyInt (env.cpu_memory
          * (OffloadHook.preclamp opts).diffusers_offload_max_cpu_memory * (1024*1024*1024))
      ∧ (∀ m ∈ pipe.modules.filter (fun m => keepName exclude m.name),
          m.isNN = true → lookupQ hookG.offload_map m.name ≠ none)
      ∧ (∀ n, lookupQ hookG.offload_map n = none
          ∨ ∃ m, m ∈ pipe.modules.filter (fun m => keepName exclude m.name)
              ∧ m.name = n ∧ m.isNN = true)
      ∧ sorted = sortBySizeDesc
          ((pipe.modules.filter (fun m => keepName exclude m.name)).filterMap
            (fun m => (lookupQ hookG.offload_map m.name).map (fun v => (m.name, v)))) := by
  have hne : ¬(opts.diffusers_offload_mode ≠ "balanced") := fun h => h hmode
  have hngt : ¬(opts.diffusers_offload_max_gpu_memory > 1) := not_lt.mpr hmaxhi
  have hpmax : (OffloadHook.preclamp opts).diffusers_offload_max_gpu_memory
      = opts.diffusers_offload_max_gpu_memory := by
    rw [preclamp_max, if_neg hngt]
  have hopts1 : (OffloadHook.init env opts
      (pipe.sd_checkpoint_info.getD pipe.className)).opts = OffloadHook.preclamp opts := by
    rw [init_opts_eq]
    apply validate_noop
    · rw [preclamp_mode]
      exact hmode
    · rw [preclamp_min]
      exact hmin0
    · rw [preclamp_min, hpmax]
      exact hminmax
    · rw [hpmax]
      exact hmaxlo
    · rw [hpmax]
      exact hmaxhi
  simp only [applyBalancedOffload, if_neg hne, if_neg hexcl] at h1
  simp only [applyCore] at h1
  split at h1
  · exact Except.noConfusion h1
  · rename_i hookG mods2 cnt eff hM
    simp only [Except.ok.injEq] at h1
    simp only [applyBalancedOffloadToModule] at hM
    split at hM
    · exact Except.noConfusion hM
    · rename_i hk2 sorted c hg
      simp only [Except.ok.injEq, Prod.mk.injEq] at hM
      obtain ⟨hMa, hMb, hMc, hMd⟩ := hM
      simp only [getPipeModules] at hg
      split at hg
      · exact Except.noConfusion hg
      · rename_i hkk lst ccc hgaux
        simp only [Except.ok.injEq, Prod.mk.injEq] at hg
        obtain ⟨hg1, hg2, hg3⟩ := hg
        subst hg1
        subst hMa
        have hFnodup : (namesOf (pipe.modules.filter (fun m => keepName exclude m.name))).Nodup := by
          have hsub : List.Sublist
              (namesOf (pipe.modules.filter (fun m => keepName exclude m.name)))
              (namesOf pipe.modules) :=
            (List.filter_sublist _).map _
          exact hsub.nodup hnodup
        have hfresh : ∀ m ∈ pipe.modules.filter (fun m => keepName exclude m.name),
            lookupQ (OffloadHook.init env opts
              (pipe.sd_checkpoint_info.getD pipe.className)).hook.offload_map m.name = none :=
          fun m _ => rfl
        obtain ⟨A1, A2, A3, A4, A5⟩ := gpmAux_fresh
          (pipe.modules.filter (fun m => keepName exclude m.name))
          _ none [] 0 _ lst ccc hfresh hFnodup hgaux
        refine ⟨hkk, sorted, cnt, eff,
          (OffloadHook.init env opts (pipe.sd_checkpoint_info.getD pipe.className)).warns,
          ?_, ?_, ?_, ?_, ?_, ?_, A2, ?_, ?_⟩
        · rw [← h1, ← hMb, hopts1]
        · rw [A4]
          exact preclamp_min opts
        · rw [A4]
          exact hpmax
        · rw [A4]
          rfl
        · rw [A4]
          rfl
        · rw [A4]
          rfl
        · intro n
          rcases A3 n with h | h
          · exact Or.inl h
          · exact Or.inr h
        · rw [← hg2, A1]
          simp

theorem hookMark_idem (L : List (String × Bool)) (P : String → Bool) :
    (L.map (fun nh => (nh.1, nh.2 || P nh.1))).map (fun nh => (nh.1, nh.2 || P nh.1))
      = L.map (fun nh => (nh.1, nh.2 || P nh.1)) := by
  rw [List.map_map]
  apply List.map_congr_left
  intro nh _
  simp [Function.comp, Bool.or_assoc]

theorem reuse_call_spec (env : SharedEnv) (opts2 : Opts) (pipe2 : Pipe) (exclude : List String)
    (hookG : OffloadHook)
    (hmode2 : opts2.diffusers_offload_mode = "balanced")
    (hexcl2 : pipe2.className ∉ balanced_offload_exclude)
    (hcond : hookG.min_watermark = opts2.diffusers_offload_min_gpu_memory
      ∧ hookG.max_watermark = opts2.diffusers_offload_max_gpu_memory
      ∧ pipe2.sd_checkpoint_info.getD pipe2.className = hookG.checkpoint_name)
    (hhit : ∀ m ∈ pipe2.modules.filter (fun m => keepName exclude m.name),
      m.isNN = true → lookupQ hookG.offload_map m.name ≠ none)
    (hmiss : ∀ m ∈ pipe2.modules.filter (fun m => keepName exclude m.name),
      m.isNN = false → lookupQ hookG.offload_map m.name = none) :
    applyBalancedOffload env (some hookG) opts2 pipe2 exclude
      = .ok ⟨some hookG, opts2,
          {pipe2 with modules :=
            ((sortBySizeDesc
                ((pipe2.modules.filter (fun m => keepName exclude m.name)).filterMap
                  (fun m => (lookupQ hookG.offload_map m.name).map (fun v => (m.name, v))))).foldl
              (fun s it => applyOne env opts2 (pipe2.sd_checkpoint_info.getD pipe2.className) it s)
              (env.usedGpu, ⟨0, []⟩, pipe2.modules)).2.2},
          0, false, [],
          ((sortBySizeDesc
              ((pipe2.modules.filter (fun m => keepName exclude m.name)).filterMap
                (fun m => (lookupQ hookG.offload_map m.name).map (fun v => (m.name, v))))).foldl
            (fun s it => applyOne env opts2 (pipe2.sd_checkpoint_info.getD pipe2.className) it s)
            (env.usedGpu, ⟨0, []⟩, pipe2.modules)).2.1⟩ := by
  have hne : ¬(opts2.diffusers_offload_mode ≠ "balanced") := fun h => h hmode2
  have hgpm : getPipeModules exclude hookG pipe2.modules
      = .ok (hookG, sortBySizeDesc
          ((pipe2.modules.filter (fun m => keepName exclude m.name)).filterMap
            (fun m => (lookupQ hookG.offload_map m.name).map (fun v => (m.name, v)))), 0) := by
    simp only [getPipeModules]
    rw [gpmAux_cached hookG _ [] 0 none hhit hmiss]
    simp
  simp only [applyBalancedOffload, if_neg hne, if_neg hexcl2]
  rw [if_pos hcond]
  simp only [applyCore, applyBalancedOffloadToModule, hgpm]

theorem idem_second_call
    (env : SharedEnv) (opts2 : Opts) (pipe : Pipe) (exclude : List String)
    (hookG : OffloadHook) (mods2 : List PipeModule) (sorted₁ : List (String × ℚ))
    (hmode2 : opts2.diffusers_offload_mode = "balanced")
    (hexcl2 : pipe.className ∉ balanced_offload_exclude)
    (hcond : hookG.min_watermark = opts2.diffusers_offload_min_gpu_memory
      ∧ hookG.max_watermark = opts2.diffusers_offload_max_gpu_memory
      ∧ pipe.sd_checkpoint_info.getD pipe.className = hookG.checkpoint_name)
    (hnodup : (namesOf pipe.modules).Nodup)
    (hhitF : ∀ m ∈ pipe.modules.filter (fun m => keepName exclude m.name),
      m.isNN = true → lookupQ hookG.offload_map m.name ≠ none)
    (hA3 : ∀ n, lookupQ hookG.offload_map n = none
      ∨ ∃ m, m ∈ pipe.modules.filter (fun m => keepName exclude m.name)
          ∧ m.name = n ∧ m.isNN = true)
    (hs1 : sorted₁ = sortBySizeDesc
      ((pipe.modules.filter (fun m => keepName exclude m.name)).filterMap
        (fun m => (lookupQ hookG.offload_map m.name).map (fun v => (m.name, v)))))
    (hnn2 : nnState mods2 = nnState pipe.modules)
    (hhs2 : hookState mods2 = (hookState pipe.modules).map
      (fun nh => (nh.1, nh.2 || sorted₁.any (fun it => nh.1 == it.1)))) :
    ∃ r₂, applyBalancedOffload env (some hookG) opts2 {pipe with modules := mods2} exclude
        = .ok r₂
      ∧ r₂.builtNew = false
      ∧ r₂.hookInstance = some hookG
      ∧ r₂.computeCount = 0
      ∧ hookState r₂.pipe.modules = hookState mods2
      ∧ ∀ m ∈ r₂.pipe.modules, keepName exclude m.name = true → m.isNN = true →
          m.hooked = true := by
  have hFnodup : ((pipe.modules.filter (fun m => keepName exclude m.name)).map
      (fun m => m.name)).Nodup := by
    have hsub : List.Sublist
        (namesOf (pipe.modules.filter (fun m => keepName exclude m.name)))
        (namesOf pipe.modules) :=
      (List.filter_sublist _).map _
    exact hsub.nodup hnodup
  have hnodup2 : (namesOf mods2).Nodup := by
    rw [namesOf_eq_of_nnState hnn2]
    exact hnodup
  have hNN : nnState (mods2.filter (fun m => keepName exclude m.name))
      = nnState (pipe.modules.filter (fun m => keepName exclude m.name)) :=
    nnState_filter (keepName exclude) hnn2
  have hnamesF : namesOf (mods2.filter (fun m => keepName exclude m.name))
      = namesOf (pipe.modules.filter (fun m => keepName exclude m.name)) :=
    namesOf_eq_of_nnState hNN
  have hhit₂ : ∀ m ∈ mods2.filter (fun m => keepName exclude m.name),
      m.isNN = true → lookupQ hookG.offload_map m.name ≠ none := by
    intro m hm hnn
    obtain ⟨mp, hmpF, hname, hisnn⟩ := nnState_mem hNN.symm m hm
    rw [← hname]
    exact hhitF mp hmpF (by rw [hisnn, hnn])
  have hmiss₂ : ∀ m ∈ mods2.filter (fun m => keepName exclude m.name),
      m.isNN = false → lookupQ hookG.offload_map m.name = none := by
    intro m hm hfa
    obtain ⟨mp, hmpF, hname, hisnn⟩ := nnState_mem hNN.symm m hm
    rcases hA3 m.name with h | ⟨mq, hmq, hnameq, hnnq⟩
    · exact h
    · have hmm : mq = mp :=
        List.inj_on_of_nodup_map hFnodup hmq hmpF (by rw [hnameq, hname])
      rw [hmm, hisnn, hfa] at hnnq
      exact Bool.noConfusion hnnq
  have hfm : (mods2.filter (fun m => keepName exclude m.name)).filterMap
        (fun m => (lookupQ hookG.offload_map m.name).map (fun v => (m.name, v)))
      = (pipe.modules.filter (fun m => keepName exclude m.name)).filterMap
        (fun m => (lookupQ hookG.offload_map m.name).map (fun v => (m.name, v))) :=
    filterMap_lookup_eq hookG.offload_map hnamesF
  have hcall := reuse_call_spec env opts2 {pipe with modules := mods2} exclude hookG
    hmode2 hexcl2 hcond hhit₂ hmiss₂
  have hLhs : hookState ((sortBySizeDesc
        ((mods2.filter (fun m => keepName exclude m.name)).filterMap
          (fun m => (lookupQ hookG.offload_map m.name).map (fun v => (m.name, v))))).foldl
      (fun s it => applyOne env opts2 (pipe.sd_checkpoint_info.getD pipe.className) it s)
      (env.usedGpu, ⟨0, []⟩, mods2)).2.2
      = (hookState pipe.modules).map
        (fun nh => (nh.1, nh.2 || sorted₁.any (fun it => nh.1 == it.1))) := by
    simp only [applyFold_hookState]
    rw [hfm, ← hs1, hhs2]
    exact hookMark_idem (hookState pipe.modules)
      (fun n => sorted₁.any (fun it => n == it.1))
  have hLnn : nnState ((sortBySizeDesc
        ((mods2.filter (fun m => keepName exclude m.name)).filterMap
          (fun m => (lookupQ hookG.offload_map m.name).map (fun v => (m.name, v))))).foldl
      (fun s it => applyOne env opts2 (pipe.sd_checkpoint_info.getD pipe.className) it s)
      (env.usedGpu, ⟨0, []⟩, mods2)).2.2 = nnState pipe.modules :=
    (applyFold_nnState env opts2 (pipe.sd_checkpoint_info.getD pipe.className) _
      (env.usedGpu, ⟨0, []⟩, mods2) hnodup2).trans hnn2
  refine ⟨_, hcall, rfl, rfl, rfl, hLhs.trans hhs2.symm, ?_⟩
  intro m hm hkeep hnn
  have hm' : m ∈ ((sortBySizeDesc
        ((mods2.filter (fun m => keepName exclude m.name)).filterMap
          (fun m => (lookupQ hookG.offload_map m.name).map (fun v => (m.name, v))))).foldl
      (fun s it => applyOne env opts2 (pipe.sd_checkpoint_info.getD pipe.className) it s)
      (env.usedGpu, ⟨0, []⟩, mods2)).2.2 := hm
  have hpair : (m.name, m.hooked) ∈ (hookState pipe.modules).map
      (fun nh => (nh.1, nh.2 || sorted₁.any (fun it => nh.1 == it.1))) := by
    rw [← hLhs]
    exact List.mem_map_of_mem _ hm'
  simp only [List.mem_map] at hpair
  obtain ⟨nh, hnhmem, hnheq⟩ := hpair
  simp only [Prod.mk.injEq] at hnheq
  obtain ⟨hn1, hn2⟩ := hnheq
  obtain ⟨mp, hmpmem, hmpname, hmpnn⟩ := nnState_mem hLnn.symm m hm'
  have hmpF : mp ∈ pipe.modules.filter (fun m => keepName exclude m.name) :=
    List.mem_filter.mpr ⟨hmpmem, by rw [hmpname]; exact hkeep⟩
  have hlk : lookupQ hookG.offload_map mp.name ≠ none :=
    hhitF mp hmpF (by rw [hmpnn, hnn])
  obtain ⟨v, hv⟩ := Option.ne_none_iff_exists'.mp hlk
  have hmemS : (mp.name, v) ∈ sorted₁ := by
    rw [hs1, mem_sortBySizeDesc]
    exact List.mem_filterMap.mpr ⟨mp, hmpF, by rw [hv]; rfl⟩
  have hany : sorted₁.any (fun it => nh.1 == it.1) = true := by
    refine List.any_eq_true.mpr ⟨(mp.name, v), hmemS, ?_⟩
    simp [hn1, hmpname]
  rw [← hn2, hany, Bool.or_true]

/-- C3: calling `apply_balanced_offload` twice in succession with unchanged
checkpoint identity and unchanged watermark configuration reuses the existing
manager on the second call: the second call succeeds, constructs no new
manager, recomputes no size-cache entry (its computation counter is zero),
produces the same hook-attachment state as the first call, and still
re-attaches the hook on every retained torch submodule. -/
theorem orchestrator_idempotent (env : SharedEnv) (opts : Opts) (pipe : Pipe)
    (exclude : List String) (r₁ : ApplyResult)
    (hmode : opts.diffusers_offload_mode = "balanced")
    (hexcl : pipe.className ∉ balanced_offload_exclude)
    (hmin0 : 0 ≤ opts.diffusers_offload_min_gpu_memory)
    (hminmax : opts.diffusers_offload_min_gpu_memory ≤ opts.diffusers_offload_max_gpu_memory)
    (hmaxlo : 1/10 ≤ opts.diffusers_offload_max_gpu_memory)
    (hmaxhi : opts.diffusers_offload_max_gpu_memory ≤ 1)
    (hnodup : (namesOf pipe.modules).Nodup)
    (h1 : applyBalancedOffload env none opts pipe exclude = .ok r₁) :
    ∃ r₂, applyBalancedOffload env r₁.hookInstance r₁.opts r₁.pipe exclude = .ok r₂
      ∧ r₂.builtNew = false
      ∧ r₂.hookInstance = r₁.hookInstance
      ∧ r₂.computeCount = 0
      ∧ hookState r₂.pipe.modules = hookState r₁.pipe.modules
      ∧ ∀ m ∈ r₂.pipe.modules, keepName exclude m.name = true → m.isNN = true →
          m.hooked = true := by
  obtain ⟨hookG, sorted₁, c, eff, warns, hr, hminG, hmaxG, hckG, hcwG, hcbG, hhitF, hA3, hs1⟩ :=
    first_call_spec env opts pipe exclude r₁ hmode hexcl hmin0 hminmax hmaxlo hmaxhi hnodup h1
  subst hr
  have hngt : ¬(opts.diffusers_offload_max_gpu_memory > 1) := not_lt.mpr hmaxhi
  have hmode2 : (OffloadHook.preclamp opts).diffusers_offload_mode = "balanced" := by
    rw [preclamp_mode]
    exact hmode
  have hcond : hookG.min_watermark
        = (OffloadHook.preclamp opts).diffusers_offload_min_gpu_memory
      ∧ hookG.max_watermark
        = (OffloadHook.preclamp opts).diffusers_offload_max_gpu_memory
      ∧ pipe.sd_checkpoint_info.getD pipe.className = hookG.checkpoint_name := by
    refine ⟨?_, ?_, hckG.symm⟩
    · rw [preclamp_min]
      exact hminG
    · rw [preclamp_max, if_neg hngt]
      exact hmaxG
  have hnn2 : nnState ((sorted₁.foldl
      (fun s it => applyOne env (OffloadHook.preclamp opts)
        (pipe.sd_checkpoint_info.getD pipe.className) it s)
      (env.usedGpu, ⟨0, []⟩, pipe.modules)).2.2) = nnState pipe.modules :=
    applyFold_nnState env (OffloadHook.preclamp opts)
      (pipe.sd_checkpoint_info.getD pipe.className) sorted₁
      (env.usedGpu, ⟨0, []⟩, pipe.modules) hnodup
  have hhs2 : hookState ((sorted₁.foldl
      (fun s it => applyOne env (OffloadHook.preclamp opts)
        (pipe.sd_checkpoint_info.getD pipe.className) it s)
      (env.usedGpu, ⟨0, []⟩, pipe.modules)).2.2)
      = (hookState pipe.modules).map
        (fun nh => (nh.1, nh.2 || sorted₁.any (fun it => nh.1 == it.1))) :=
    applyFold_hookState env (OffloadHook.preclamp opts)
      (pipe.sd_checkpoint_info.getD pipe.className) sorted₁
      (env.usedGpu, ⟨0, []⟩, pipe.modules)
  exact idem_second_call env (OffloadHook.preclamp opts) pipe exclude hookG
    ((sorted₁.foldl
      (fun s it => applyOne env (OffloadHook.preclamp opts)
        (pipe.sd_checkpoint_info.getD pipe.className) it s)
      (env.usedGpu, ⟨0, []⟩, pipe.modules)).2.2) sorted₁
    hmode2 hexcl hcond hnodup hhitF hA3 hs1 hnn2 hhs2

/-- C10: when the checkpoint identity and the low and high accelerator
watermarks are unchanged, the second `apply_balanced_offload` call reuses the
existing manager even though the host (CPU) watermark option changed to `q`
in between — the reuse check (lines 245-247) never consults it — and the
reused manager's host watermark snapshot and host byte budget remain the
values computed at construction time from the original options. -/
theorem cpu_watermark_ignored_on_reuse (env : SharedEnv) (opts : Opts) (pipe : Pipe)
    (exclude : List String) (r₁ : ApplyResult) (q : ℚ)
    (hmode : opts.diffusers_offload_mode = "balanced")
    (hexcl : pipe.className ∉ balanced_offload_exclude)
    (hmin0 : 0 ≤ opts.diffusers_offload_min_gpu_memory)
    (hminmax : opts.diffusers_offload_min_gpu_memory ≤ opts.diffusers_offload_max_gpu_memory)
    (hmaxlo : 1/10 ≤ opts.diffusers_offload_max_gpu_memory)
    (hmaxhi : opts.diffusers_offload_max_gpu_memory ≤ 1)
    (hnodup : (namesOf pipe.modules).Nodup)
    (h1 : applyBalancedOffload env none opts pipe exclude = .ok r₁) :
    ∃ r₂, applyBalancedOffload env r₁.hookInstance
        {r₁.opts with diffusers_offload_max_cpu_memory := q} r₁.pipe exclude = .ok r₂
      ∧ r₂.builtNew = false
      ∧ r₂.hookInstance = r₁.hookInstance
      ∧ ∀ h, r₁.hookInstance = some h →
          h.cpu_watermark = (OffloadHook.preclamp opts).diffusers_offload_max_cpu_memory
          ∧ h.cpu = pyInt (env.cpu_memory
              * (OffloadHook.preclamp opts).diffusers_offload_max_cpu_memory
              * (1024*1024*1024)) := by
  obtain ⟨hookG, sorted₁, c, eff, warns, hr, hminG, hmaxG, hckG, hcwG, hcbG, hhitF, hA3, hs1⟩ :=
    first_call_spec env opts pipe exclude r₁ hmode hexcl hmin0 hminmax hmaxlo hmaxhi hnodup h1
  subst hr
  have hngt : ¬(opts.diffusers_offload_max_gpu_memory > 1) := not_lt.mpr hmaxhi
  have hmode2 : ({OffloadHook.preclamp opts with
      diffusers_offload_max_cpu_memory := q}).diffusers_offload_mode = "balanced" := by
    show (OffloadHook.preclamp opts).diffusers_offload_mode = "balanced"
    rw [preclamp_mode]
    exact hmode
  have hcond : hookG.min_watermark
        = ({OffloadHook.preclamp opts with
            diffusers_offload_max_cpu_memory := q}).diffusers_offload_min_gpu_memory
      ∧ hookG.max_watermark
        = ({OffloadHook.preclamp opts with
            diffusers_offload_max_cpu_memory := q}).diffusers_offload_max_gpu_memory
      ∧ pipe.sd_checkpoint_info.getD pipe.className = hookG.checkpoint_name := by
    refine ⟨?_, ?_, hckG.symm⟩
    · show hookG.min_watermark = (OffloadHook.preclamp opts).diffusers_offload_min_gpu_memory
      rw [preclamp_min]
      exact hminG
    · show hookG.max_watermark = (OffloadHook.preclamp opts).diffusers_offload_max_gpu_memory
      rw [preclamp_max, if_neg hngt]
      exact hmaxG
  have hnn2 : nnState ((sorted₁.foldl
      (fun s it => applyOne env (OffloadHook.preclamp opts)
        (pipe.sd_checkpoint_info.getD pipe.className) it s)
      (env.usedGpu, ⟨0, []⟩, pipe.modules)).2.2) = nnState pipe.modules :=
    applyFold_nnState env (OffloadHook.preclamp opts)
      (pipe.sd_checkpoint_info.getD pipe.className) sorted₁
      (env.usedGpu, ⟨0, []⟩, pipe.modules) hnodup
  have hhs2 : hookState ((sorted₁.foldl
      (fun s it => applyOne env (OffloadHook.preclamp opts)
        (pipe.sd_checkpoint_info.getD pipe.className) it s)
      (env.usedGpu, ⟨0, []⟩, pipe.modules)).2.2)
      = (hookState pipe.modules).map
        (fun nh => (nh.1, nh.2 || sorted₁.any (fun it => nh.1 == it.1))) :=
    applyFold_hookState env (OffloadHook.preclamp opts)
      (pipe.sd_checkpoint_info.getD pipe.className) sorted₁
      (env.usedGpu, ⟨0, []⟩, pipe.modules)
  obtain ⟨r₂, hcall, hb, hh, _, _, _⟩ := idem_second_call env
    {OffloadHook.preclamp opts with diffusers_offload_max_cpu_memory := q}
    pipe exclude hookG
    ((sorted₁.foldl
      (fun s it => applyOne env (OffloadHook.preclamp opts)
        (pipe.sd_checkpoint_info.getD pipe.className) it s)
      (env.usedGpu, ⟨0, []⟩, pipe.modules)).2.2) sorted₁
    hmode2 hexcl hcond hnodup hhitF hA3 hs1 hnn2 hhs2
  refine ⟨r₂, hcall, hb, hh, ?_⟩
  intro h hsome
  have hsome' : some hookG = some h := hsome
  injection hsome' with he
  subst he
  exact ⟨hcwG, hcbG⟩

theorem applyB_first : applyBalancedOffload envA none optsA pipeB [] = .ok resB := by
  have e1 : ("StableDiffusionPipeline" = "CogView4Pipeline") = False := by simp
  have e2 : (Device.accel = Device.cpu) = False := by simp
  have e3 : ("model.safetensors" ++ "/" ++ "unet") = "model.safetensors/unet" := rfl
  norm_num [applyBalancedOffload, applyCore, applyBalancedOffloadToModule, getPipeModules,
    gpmAux, OffloadHook.init, OffloadHook.preclamp, OffloadHook.validate, keepName,
    strBeginsWith, listBeginsWith, strContains, containsSub, lookupQ, sortBySizeDesc,
    insertBySize, applyOne, offload_post_types, balanced_offload_exclude,
    envA, optsA, pipeB, mUnet, hookB, mUnetDone, resB, e1, e2, e3]

/-- Witness for C3: the concrete two-call run on `pipeB` under `envA`/`optsA`. -/
theorem orchestrator_idempotent_witness :
    ∃ r₂, applyBalancedOffload envA resB.hookInstance resB.opts resB.pipe [] = .ok r₂
      ∧ r₂.builtNew = false
      ∧ r₂.hookInstance = resB.hookInstance
      ∧ r₂.computeCount = 0
      ∧ hookState r₂.pipe.modules = hookState resB.pipe.modules
      ∧ ∀ m ∈ r₂.pipe.modules, keepName [] m.name = true → m.isNN = true →
          m.hooked = true :=
  orchestrator_idempotent envA optsA pipeB [] resB rfl
    (by simp [pipeB, balanced_offload_exclude])
    (by norm_num [optsA]) (by norm_num [optsA]) (by norm_num [optsA]) (by norm_num [optsA])
    (by simp [namesOf, pipeB, mUnet])
    applyB_first

/-- Witness for C10: the concrete two-call run on `pipeB` under `envA`/`optsA`
with the host watermark option changed to 9/10 between the calls. -/
theorem cpu_watermark_ignored_on_reuse_witness :
    ∃ r₂, applyBalancedOffload envA resB.hookInstance
        {resB.opts with diffusers_offload_max_cpu_memory := 9/10} resB.pipe [] = .ok r₂
      ∧ r₂.builtNew = false
      ∧ r₂.hookInstance = resB.hookInstance
      ∧ ∀ h, resB.hookInstance = some h →
          h.cpu_watermark = (OffloadHook.preclamp optsA).diffusers_offload_max_cpu_memory
          ∧ h.cpu = pyInt (envA.cpu_memory
              * (OffloadHook.preclamp optsA).diffusers_offload_max_cpu_memory
              * (1024*1024*1024)) :=
  cpu_watermark_ignored_on_reuse envA optsA pipeB [] resB (9/10) rfl
    (by simp [pipeB, balanced_offload_exclude])
    (by norm_num [optsA]) (by norm_num [optsA]) (by norm_num [optsA]) (by norm_num [optsA])
    (by simp [namesOf, pipeB, mUnet])
    applyB_first

end SdOffload
